import Mathlib

/-!
# RENTYFI rent-ledger and balance-mutator core, shallowly embedded

Definitions translated from `src/server/storage.ts` (class `DatabaseStorage`),
`src/server/routes.ts` and the rent-payment modal's `handleSubmit`
(`src/unnamed/part_000`).  Monetary values are modelled as exact integers in the
smallest currency unit; the source stores decimal strings with two fractional
digits and performs the same additions, subtractions, comparisons and `max`
operations on them, so the arithmetic structure is preserved.  Database tables
are lists of rows; `db.select().where(...)` with a subsequent `[row] = ...`
destructuring is `List.find?` (first match), `db.update ... where id` maps over
the list replacing matching rows, and `db.delete ... where id` filters them out.
A thrown `Error` becomes an `Except` error value; every operation of the source
validates before writing (or runs inside `db.transaction`, which rolls back on a
throw), so an error result leaves the store unchanged.
-/

namespace Rentyfi

/-! ## Rent-period records (table `rent_payments`, `src/shared/schema.ts`) -/

/-- One row of the `rent_payments` table.  `paymentDate` is an abstract
timestamp, `status` is the stored text column. -/
structure RentPayment where
  id : Nat
  userId : Nat
  tenantId : Nat
  shopId : Nat
  month : Nat
  year : Nat
  amount : Int
  paidAmount : Int
  pendingAmount : Int
  status : String
  paymentDate : Option Nat
  notes : Option String
  deriving Repr, DecidableEq

/-- The central ledger invariant of the spec (§3 RentPayment, §8 P1):
`pendingAmount = max(amount - paidAmount, 0)` and `status = "paid"` iff the
pending amount is zero. -/
def rentInvariant (p : RentPayment) : Prop :=
  p.pendingAmount = max (p.amount - p.paidAmount) 0 ∧
  p.status = (if p.pendingAmount = 0 then ("paid") else ("pending"))

instance (p : RentPayment) : Decidable (rentInvariant p) := by
  unfold rentInvariant; infer_instance

/-- Natural key of a rent-period record, as grouped by the source:
(tenant, shop, month, year). -/
def rentKey (p : RentPayment) : Nat × Nat × Nat × Nat :=
  (p.tenantId, p.shopId, p.month, p.year)

/-- Models `db.select().from(rentPayments).where(and(userId, tenantId,
shopId, month, year))` followed by taking `existing[0]`: first row matching the full lookup
key used by `upsertRentPayment` and
`updateRentPaymentAfterTransactionDelete`. -/
def findRentPayment (rows : List RentPayment) (u t s m y : Nat) :
    Option RentPayment :=
  rows.find? fun p =>
    p.userId = u ∧ p.tenantId = t ∧ p.shopId = s ∧ p.month = m ∧ p.year = y

/-- The data argument of `upsertRentPayment` (storage.ts:925).  The source
receives an untyped object; fields that JavaScript code reads through `??`
defaults are `Option`s here.  A document missing `amount` would be rejected by
the datastore's not-null constraint on insert; callers in the repository always
supply it. -/
structure UpsertRentData where
  userId : Nat
  tenantId : Nat
  shopId : Nat
  month : Nat
  year : Nat
  amount : Option Int
  paidAmount : Option Int
  pendingAmount : Option Int
  status : Option String
  paymentDate : Option Nat
  notes : Option String
  deriving Repr, DecidableEq

/-- Model of `upsertRentPayment` (storage.ts:925-970).  If a row for the period exists:
increments `paidAmount` by the supplied payment, recomputes `pendingAmount` and
`status` against `Number(data.amount ?? prev.amount ?? 0)` — note: the supplied
amount, not the stored one — and updates `paymentDate`/`notes`; the stored
`amount` column is left unchanged.  Otherwise inserts a new row taking
`paidAmount`, `pendingAmount` and `status` from the supplied data.  `now` is
the `new Date()` fallback for `paymentDate`. -/
def upsertRentPayment (rows : List RentPayment) (nextId : Nat) (now : Nat)
    (data : UpsertRentData) : List RentPayment × Nat :=
  match findRentPayment rows data.userId data.tenantId data.shopId data.month
      data.year with
  | some prev =>
    let newPaid := prev.paidAmount + data.paidAmount.getD 0
    let amount := data.amount.getD prev.amount
    let pending := max (amount - newPaid) 0
    let status := if pending = 0 then ("paid") else ("pending")
    let rows' := rows.map fun r =>
      if r.id = prev.id then
        { r with
          paidAmount := newPaid
          pendingAmount := pending
          status := status
          paymentDate := some (data.paymentDate.getD now)
          notes := data.notes.or prev.notes }
      else r
    (rows', nextId)
  | none =>
    (rows ++ [{
      id := nextId
      userId := data.userId
      tenantId := data.tenantId
      shopId := data.shopId
      month := data.month
      year := data.year
      amount := data.amount.getD 0
      paidAmount := data.paidAmount.getD 0
      pendingAmount := data.pendingAmount.getD 0
      status := data.status.getD
        (if data.pendingAmount.getD 0 = 0 then ("paid") else ("pending"))
      paymentDate := data.paymentDate
      notes := data.notes }], nextId + 1)

/-- Parameter record of `updateRentPaymentAfterTransactionDelete`
(storage.ts:973-980). -/
structure ReverseParams where
  userId : Nat
  tenantId : Nat
  shopId : Nat
  month : Nat
  year : Nat
  amount : Int
  deriving Repr, DecidableEq

/-- Model of `updateRentPaymentAfterTransactionDelete` (storage.ts:973-1007):
the
payment-reversal path run when a rent transaction is deleted.  Looks the period
up by natural key; when present, clamps `paidAmount` at zero and recomputes
pending/status from the record's own stored `amount`; when absent, does
nothing. -/
def updateRentPaymentAfterTransactionDelete (rows : List RentPayment)
    (params : ReverseParams) : List RentPayment :=
  match findRentPayment rows params.userId params.tenantId params.shopId
      params.month params.year with
  | some rent =>
    let newPaid := max (rent.paidAmount - params.amount) 0
    let pending := max (rent.amount - newPaid) 0
    let status := if pending = 0 then ("paid") else ("pending")
    rows.map fun r =>
      if r.id = rent.id then
        { r with paidAmount := newPaid, pendingAmount := pending,
                 status := status }
      else r
  | none => rows

/-- Model of `recalculateAllPendingRents` (storage.ts:1123-1148): groups the user's rows
by `tenantId-shopId-month-year`, takes the group's `amount` from its first row,
sums the group's `paidAmount`s and writes the resulting pending/status back to
every row of the group.  Each row is updated exactly once (rows have unique
primary keys), so the pass is the following per-row map. -/
def recalculateAllPendingRents (rows : List RentPayment) : List RentPayment :=
  rows.map fun r =>
    let group := rows.filter fun p => rentKey p = rentKey r
    let amount := ((group.head?).map (fun p => p.amount)).getD r.amount
    let totalPaid := (group.map fun p => p.paidAmount).sum
    let pending := max (amount - totalPaid) 0
    { r with pendingAmount := pending,
             status := if pending = 0 then ("paid") else ("pending") }

/-! ## Rent accrual generator (storage.ts `createShop`, `updateShop`,
`createMissingRentPaymentsForAllocatedShops`) -/

/-- A calendar date with day precision.  The source stores full timestamps but
the accrual logic reads only `getFullYear()`, `getMonth() + 1` and
`getDate()`; date comparisons (`allocDate <= now`) are modelled
lexicographically, which agrees with timestamp order at day granularity. -/
structure Date where
  year : Nat
  month : Nat
  day : Nat
  deriving Repr, DecidableEq

/-- Date order `d1 <= d2` on calendar dates. -/
def dateLE (d1 d2 : Date) : Prop :=
  d1.year < d2.year ∨
    (d1.year = d2.year ∧
      (d1.month < d2.month ∨ (d1.month = d2.month ∧ d1.day ≤ d2.day)))

instance (d1 d2 : Date) : Decidable (dateLE d1 d2) := by
  unfold dateLE; infer_instance

/-- Linearisation of a (year, month) period for ordering and termination. -/
def monthIndex (y m : Nat) : Nat := 12 * y + m

/-- The `(lastMonth, lastYear)` cutoff computed by `createShop`
(storage.ts:418-435).  The source special-cases `now.getDate() === 1` but both
branches run the identical statements: `lastMonth = now.getMonth()` (the
previous calendar month, 1-based) with year rollover when it is 0. -/
def lastPeriodCreateShop (now : Date) : Nat × Nat :=
  if now.day = 1 then
    if now.month - 1 = 0 then (12, now.year - 1) else (now.month - 1, now.year)
  else
    if now.month - 1 = 0 then (12, now.year - 1) else (now.month - 1, now.year)

/-- The cutoff computed by `createMissingRentPaymentsForAllocatedShops`
(storage.ts:1286-1294) and by `updateShop` (storage.ts:551-557):
`lastMonth = currentMonth - 1`, rolling over to December of the previous
year. -/
def lastPeriodSweep (now : Date) : Nat × Nat :=
  if now.month - 1 = 0 then (12, now.year - 1) else (now.month - 1, now.year)

/-- The `(year, month)` pairs visited by the accrual `while` loop
(storage.ts:436-464): starting at `(y, m)`, while
`y < lastYear || (y == lastYear && m <= lastMonth)`, stepping `m++` with
rollover `13 -> (y+1, 1)`. -/
def genPeriods (y m ly lm : Nat) : List (Nat × Nat) :=
  if y < ly ∨ (y = ly ∧ m ≤ lm) then
    (y, m) ::
      (if m + 1 > 12 then genPeriods (y + 1) 1 ly lm
       else genPeriods y (m + 1) ly lm)
  else []
termination_by (ly + 1 - y) * 13 + (13 - min m 13)
decreasing_by
  · omega
  · omega

/-- Body of the accrual loop: for each period, if no `rent_payments` row exists
for (user, tenant, shop, month, year), insert one with
`amount = shop.monthlyRent`, `paidAmount = 0`, `pendingAmount = monthlyRent`,
`status = "pending"` (storage.ts:436-464, 558-586, 1302-1331). -/
def generateMissingRentPayments (u t s : Nat) (monthlyRent : Int)
    (periods : List (Nat × Nat)) (rows : List RentPayment) (nextId : Nat) :
    List RentPayment × Nat :=
  match periods with
  | [] => (rows, nextId)
  | (y, m) :: rest =>
    if (findRentPayment rows u t s m y).isSome then
      generateMissingRentPayments u t s monthlyRent rest rows nextId
    else
      generateMissingRentPayments u t s monthlyRent rest
        (rows ++ [{
          id := nextId
          userId := u
          tenantId := t
          shopId := s
          month := m
          year := y
          amount := monthlyRent
          paidAmount := 0
          pendingAmount := monthlyRent
          status := ("pending")
          paymentDate := none
          notes := none }]) (nextId + 1)

/-- One row of the `shops` table, restricted to the fields the accrual and
update logic reads. -/
structure Shop where
  id : Nat
  userId : Nat
  buildingId : Nat
  monthlyRent : Int
  advance : Int
  isOccupied : Bool
  isAdvancePaid : Bool
  tenantId : Option Nat
  allocated_at : Option Date
  deriving Repr, DecidableEq

/-- The auto-accrual step of `createShop` (storage.ts:413-465): runs only when
the inserted shop has a tenant and an allocation date not in the future, and
then creates the missing rows from the allocation period up to
`lastPeriodCreateShop now`. -/
def createShopAccrual (shop : Shop) (now : Date) (rows : List RentPayment)
    (nextId : Nat) : List RentPayment × Nat :=
  match shop.tenantId, shop.allocated_at with
  | some t, some alloc =>
    if dateLE alloc now then
      let lp := lastPeriodCreateShop now
      generateMissingRentPayments shop.userId t shop.id shop.monthlyRent
        (genPeriods alloc.year alloc.month lp.2 lp.1) rows nextId
    else (rows, nextId)
  | _, _ => (rows, nextId)

/-- One shop's slice of the recurring sweep
`createMissingRentPaymentsForAllocatedShops` (storage.ts:1282-1333): skip shops
without a tenant or allocation date, or allocated in the future; otherwise
create the missing rows up to the previous calendar month. -/
def sweepShopAccrual (shop : Shop) (now : Date) (rows : List RentPayment)
    (nextId : Nat) : List RentPayment × Nat :=
  match shop.tenantId, shop.allocated_at with
  | some t, some alloc =>
    if dateLE alloc now then
      let lp := lastPeriodSweep now
      generateMissingRentPayments shop.userId t shop.id shop.monthlyRent
        (genPeriods alloc.year alloc.month lp.2 lp.1) rows nextId
    else (rows, nextId)
  | _, _ => (rows, nextId)

/-! ## `updateShop` (storage.ts:469-589) -/

/-- The `updates` object passed to `updateShop`.  JavaScript distinguishes an
absent key from an explicit `null`: `none` models the absent key, `some none`
an explicit `null`, `some (some v)` a present value.  Date strings are taken as
already parsed (the source's string branches only normalise to a `Date`). -/
structure ShopUpdates where
  tenantId : Option (Option Nat) := none
  allocated_at : Option (Option Date) := none
  isOccupied : Option Bool := none
  monthlyRent : Option Int := none
  deriving Repr, DecidableEq

/-- JavaScript truthiness of `updates.tenantId`: present, non-null and nonzero
(serial ids are positive, but the guard is the source's). -/
def tenantTruthy : Option (Option Nat) → Bool
  | some (some t) => t != 0
  | _ => false

/-- JavaScript `updates.tenantId === null || updates.tenantId === undefined`. -/
def tenantNullOrUndefined : Option (Option Nat) → Bool
  | none => true
  | some none => true
  | some (some _) => false

/-- JavaScript truthiness of `updates.allocated_at` (a `Date` object is always
truthy). -/
def allocTruthy : Option (Option Date) → Bool
  | some (some _) => true
  | _ => false

/-- The updates-normalisation prefix of `updateShop` (storage.ts:470-512):
backfill `allocated_at` with `now` when a tenant is supplied without a date;
when the update carries no (truthy) tenant, force `allocated_at := null` and
`isOccupied := false`; when it does, derive `isOccupied` from the allocation
date. -/
def normalizeShopUpdates (u : ShopUpdates) (now : Date) : ShopUpdates :=
  let u1 :=
    if tenantTruthy u.tenantId && !allocTruthy u.allocated_at then
      { u with allocated_at := some (some now) }
    else u
  if tenantNullOrUndefined u1.tenantId then
    { u1 with allocated_at := some none, isOccupied := some false }
  else if tenantTruthy u1.tenantId then
    let allocDate := ((u1.allocated_at.getD none).getD now)
    { u1 with isOccupied := some (decide (dateLE allocDate now)) }
  else u1

/-- Models `db.update(shops).set(updates)`: fields present in the updates object
overwrite the row, absent keys leave it unchanged. -/
def applyShopUpdates (shop : Shop) (u : ShopUpdates) : Shop :=
  { shop with
    tenantId := u.tenantId.getD shop.tenantId
    allocated_at := u.allocated_at.getD shop.allocated_at
    isOccupied := u.isOccupied.getD shop.isOccupied
    monthlyRent := u.monthlyRent.getD shop.monthlyRent }

/-- The rent-payment recalculation appended to `updateShop`
(storage.ts:519-587): when the updates object carries an `allocated_at` or
`tenantId` key and the updated row has a tenant and a non-future allocation
date, first delete this tenant/shop's rows dated strictly before the
allocation period, then regenerate the missing periods up to the previous
calendar month. -/
def updateShopRentRecalc (shop' : Shop) (u : ShopUpdates) (now : Date)
    (rows : List RentPayment) (nextId : Nat) : List RentPayment × Nat :=
  match u.allocated_at.isSome || u.tenantId.isSome, shop'.tenantId,
      shop'.allocated_at with
  | true, some t, some alloc =>
    if dateLE alloc now then
      let kept := rows.filter fun p =>
        !(p.userId = shop'.userId ∧ p.tenantId = t ∧ p.shopId = shop'.id ∧
          (p.year < alloc.year ∨ (p.year = alloc.year ∧ p.month < alloc.month))
          : Bool)
      let lp := lastPeriodSweep now
      generateMissingRentPayments shop'.userId t shop'.id shop'.monthlyRent
        (genPeriods alloc.year alloc.month lp.2 lp.1) kept nextId
    else (rows, nextId)
  | _, _, _ => (rows, nextId)

/-- Model of `updateShop` (storage.ts:469-589) on a shop row that resolved for the
requesting user: normalise the updates object, apply it to the row, then run
the conditional rent recalculation.  Returns the updated shop together with the
new `rent_payments` table. -/
def updateShop (shop : Shop) (u : ShopUpdates) (now : Date)
    (rows : List RentPayment) (nextId : Nat) :
    Shop × List RentPayment × Nat :=
  let u' := normalizeShopUpdates u now
  let shop' := applyShopUpdates shop u'
  let r := updateShopRentRecalc shop' u' now rows nextId
  (shop', r.1, r.2)

/-! ## Balance mutator (storage.ts `createTransaction`, `deleteTransaction`,
`createTransfer`, `deleteTransfer`) -/

/-- A `bank_accounts` row, restricted to the fields the balance mutator
reads and writes. -/
structure Account where
  id : Nat
  userId : Nat
  balance : Int
  deriving Repr, DecidableEq

/-- A `transactions` row.  `accountId` is nullable (`onDelete: "set null"`);
`ttype` is the stored text column `type`. -/
structure Txn where
  id : Nat
  userId : Nat
  accountId : Option Nat
  ttype : String
  amount : Int
  deriving Repr, DecidableEq

/-- A `transfers` row (`fromAccountId`, `toAccountId`, `amount` are not
null). -/
structure Transfer where
  id : Nat
  userId : Nat
  fromAccountId : Nat
  toAccountId : Nat
  amount : Int
  deriving Repr, DecidableEq

/-- The store the balance mutator acts on: the three tables plus the serial
counters the datastore uses for fresh primary keys. -/
structure St where
  accounts : List Account
  txns : List Txn
  transfers : List Transfer
  nextTxnId : Nat
  nextTransferId : Nat
  deriving Repr, DecidableEq

/-- The error messages thrown by the balance mutator. -/
inductive StorageError where
  /-- Thrown as "Account not found". -/
  | accountNotFound
  /-- Thrown as "Invalid transaction type". -/
  | invalidTransactionType
  /-- Thrown as "Transaction not found". -/
  | transactionNotFound
  /-- Thrown as "Transaction does not have a valid accountId". -/
  | transactionHasNoAccount
  /-- Thrown as "One or both accounts not found". -/
  | oneOrBothAccountsNotFound
  /-- Thrown as "Insufficient balance in the source account". -/
  | insufficientBalance
  /-- Thrown as "Transfer not found". -/
  | transferNotFound
  /-- Thrown as "Unauthorized to delete this transfer". -/
  | unauthorizedTransferDelete
  deriving Repr, DecidableEq

/-- Models `[account] = db.select().from(bankAccounts).where(eq(id,
accountId))`. -/
def findAccount (s : St) (id : Nat) : Option Account :=
  s.accounts.find? fun a => a.id = id

/-- Models the balance write
`db.update(bankAccounts).set(currentBalance).where(eq(id, accountId))`. -/
def setBalance (accounts : List Account) (id : Nat) (v : Int) : List Account :=
  accounts.map fun a => if a.id = id then { a with balance := v } else a

/-- The current balance of account `id`, if it exists. -/
def lookupBalance (s : St) (id : Nat) : Option Int :=
  (findAccount s id).map fun a => a.balance

/-- The balance view of a raw account table (so `lookupBalance s i` is
definitionally `balOf s.accounts i`). -/
def balOf (l : List Account) (id : Nat) : Option Int :=
  (l.find? fun a => a.id = id).map fun a => a.balance

/-- Input of `createTransaction` (the fields the balance mutator reads). -/
structure InsertTxn where
  userId : Nat
  accountId : Nat
  ttype : String
  amount : Int
  deriving Repr, DecidableEq

/-- Model of `createTransaction` (storage.ts:687-736): inside one atomic unit, read the
account (else throw), compute the new balance from the type (else throw before
any write), write the balance, then insert the transaction row. -/
def createTransaction (s : St) (tx : InsertTxn) :
    Except StorageError (St × Txn) :=
  match findAccount s tx.accountId with
  | none => .error .accountNotFound
  | some account =>
    let nb : Except StorageError Int :=
      if tx.ttype = ("income") then .ok (account.balance + tx.amount)
      else if tx.ttype = ("expense") then .ok (account.balance - tx.amount)
      else .error .invalidTransactionType
    match nb with
    | .error e => .error e
    | .ok newBalance =>
      let row : Txn :=
        { id := s.nextTxnId, userId := tx.userId,
          accountId := some tx.accountId, ttype := tx.ttype,
          amount := tx.amount }
      .ok ({ s with
              accounts := setBalance s.accounts tx.accountId newBalance
              txns := s.txns ++ [row]
              nextTxnId := s.nextTxnId + 1 }, row)

/-- Model of `deleteTransaction` (storage.ts:738-786): read the transaction (else
throw), require a non-null `accountId` (else throw), read the account (else
throw), reverse the transaction's effect (`income` subtracts, `expense` adds
back; any other stored type leaves the balance as is, mirroring the source's
`if`/`else if` without `else`), write the balance, delete the row. -/
def deleteTransaction (s : St) (id : Nat) : Except StorageError St :=
  match s.txns.find? fun t => t.id = id with
  | none => .error .transactionNotFound
  | some txn =>
    match txn.accountId with
    | none => .error .transactionHasNoAccount
    | some accId =>
      match findAccount s accId with
      | none => .error .accountNotFound
      | some account =>
        let newBalance :=
          if txn.ttype = ("income") then account.balance - txn.amount
          else if txn.ttype = ("expense") then account.balance + txn.amount
          else account.balance
        .ok { s with
              accounts := setBalance s.accounts accId newBalance
              txns := s.txns.filter fun t => ¬t.id = id }

/-- Input of `createTransfer`. -/
structure InsertTransfer where
  userId : Nat
  fromAccountId : Nat
  toAccountId : Nat
  amount : Int
  deriving Repr, DecidableEq

/-- Model of `createTransfer` (storage.ts:794-846): inside one atomic unit, read both
accounts (else throw), reject when the source balance is below the amount
(before any write), then debit the source, credit the destination (both new
balances computed from the pre-write reads) and insert the transfer row. -/
def createTransfer (s : St) (tr : InsertTransfer) :
    Except StorageError (St × Transfer) :=
  match findAccount s tr.fromAccountId, findAccount s tr.toAccountId with
  | some fromAccount, some toAccount =>
    if fromAccount.balance < tr.amount then .error .insufficientBalance
    else
      let newFromBalance := fromAccount.balance - tr.amount
      let newToBalance := toAccount.balance + tr.amount
      let row : Transfer :=
        { id := s.nextTransferId, userId := tr.userId,
          fromAccountId := tr.fromAccountId, toAccountId := tr.toAccountId,
          amount := tr.amount }
      .ok ({ s with
              accounts :=
                setBalance
                  (setBalance s.accounts tr.fromAccountId newFromBalance)
                  tr.toAccountId newToBalance
              transfers := s.transfers ++ [row]
              nextTransferId := s.nextTransferId + 1 }, row)
  | _, _ => .error .oneOrBothAccountsNotFound

/-- Model of `deleteTransfer` (storage.ts:848-888): read the transfer (else throw),
check ownership (else throw), then — without re-checking any balance — credit
the source back and debit the destination (the source guards on truthiness of
the row's account ids; `amount`, a nonempty decimal string in JavaScript, is
always truthy) and delete the row.  The revert is skipped, but the row still
deleted, if either account no longer resolves. -/
def deleteTransfer (s : St) (id : Nat) (userId : Nat) :
    Except StorageError St :=
  match s.transfers.find? fun t => t.id = id with
  | none => .error .transferNotFound
  | some transfer =>
    if transfer.userId ≠ userId then .error .unauthorizedTransferDelete
    else
      let accounts' :=
        if transfer.fromAccountId ≠ 0 ∧ transfer.toAccountId ≠ 0 then
          match findAccount s transfer.fromAccountId,
              findAccount s transfer.toAccountId with
          | some fromAccount, some toAccount =>
            setBalance
              (setBalance s.accounts transfer.fromAccountId
                (fromAccount.balance + transfer.amount))
              transfer.toAccountId (toAccount.balance - transfer.amount)
          | _, _ => s.accounts
        else s.accounts
      .ok { s with
            accounts := accounts'
            transfers := s.transfers.filter fun t => ¬t.id = id }

/-! ## Interleaved operations for the transfer round-trip (spec §8 P3) -/

/-- One balance-mutator call, for interleaving between a transfer's creation
and its deletion. -/
inductive Op where
  | createTx (tx : InsertTxn)
  | deleteTx (id : Nat)
  | createTr (tr : InsertTransfer)
  | deleteTr (id : Nat) (userId : Nat)
  deriving Repr, DecidableEq

/-- Run one operation. -/
def applyOp (s : St) (op : Op) : Except StorageError St :=
  match op with
  | .createTx tx => (createTransaction s tx).map fun r => r.1
  | .deleteTx id => deleteTransaction s id
  | .createTr tr => (createTransfer s tr).map fun r => r.1
  | .deleteTr id userId => deleteTransfer s id userId

/-- Run a sequence of operations, stopping at the first error. -/
def applyOps (s : St) : List Op → Except StorageError St
  | [] => .ok s
  | op :: ops =>
    match applyOp s op with
    | .error e => .error e
    | .ok s' => applyOps s' ops

/-- An operation is unrelated to accounts `a` and `b` (relative to the initial
store `s₀`): it neither references them directly nor deletes a row that
references them, and it only deletes rows that already existed in `s₀`. -/
def opAvoids (s₀ : St) (a b : Nat) : Op → Prop
  | .createTx tx => tx.accountId ≠ a ∧ tx.accountId ≠ b
  | .deleteTx id =>
      id < s₀.nextTxnId ∧
      ∀ t ∈ s₀.txns, t.id = id →
        t.accountId ≠ some a ∧ t.accountId ≠ some b
  | .createTr tr =>
      tr.fromAccountId ≠ a ∧ tr.fromAccountId ≠ b ∧
      tr.toAccountId ≠ a ∧ tr.toAccountId ≠ b
  | .deleteTr id _ =>
      id < s₀.nextTransferId ∧
      ∀ t ∈ s₀.transfers, t.id = id →
        t.fromAccountId ≠ a ∧ t.fromAccountId ≠ b ∧
        t.toAccountId ≠ a ∧ t.toAccountId ≠ b

/-- Well-formedness the datastore guarantees: serial primary keys are below
the sequence counter. -/
def WfSt (s : St) : Prop :=
  (∀ t ∈ s.txns, t.id < s.nextTxnId) ∧
  (∀ t ∈ s.transfers, t.id < s.nextTransferId)

/-! ## The payment path: client-side validation (`handleSubmit`,
src/unnamed/part_000:911-997) feeding `upsertRentPayment` through
`POST /api/rent-payments/upsert` (routes.ts:623-652) -/

/-- The rejection toasts of `handleSubmit`. -/
inductive PaymentError where
  /-- toast "Already Paid" — the period is already fully paid -/
  | alreadyPaid
  /-- toast "Amount Exceeds Actual Rent" -/
  | amountExceedsRent
  /-- toast "Invalid Amount" — amount paid must be greater than zero -/
  | invalidAmount
  deriving Repr, DecidableEq

/-- The rent-payment entry operation: `handleSubmit`'s checks (in source
order: the `isFullyPaidForPeriod` guard, then the overpayment check against
the period's recorded `amount` — falling back to the shop's current rent when
no row exists — then the positivity check), followed, when all pass, by the
upsert the mutation posts.  The submitted data carries `amount = shopRent` and
a `pendingAmount`/`status` computed from the period amount, exactly as built
in `handleSubmit`.  A rejection returns before `mutation.mutate`, so no row is
created or modified. -/
def applyPayment (rows : List RentPayment) (nextId : Nat)
    (userId tenantId shopId month year : Nat) (paid : Int) (shopRent : Int)
    (paymentDate : Nat) : Except PaymentError (List RentPayment × Nat) :=
  let payments := rows.filter fun p =>
    p.tenantId = tenantId ∧ p.shopId = shopId ∧ p.month = month ∧ p.year = year
  let periodAmount := ((payments.head?).map fun p => p.amount).getD shopRent
  let totalPaid := (payments.map fun p => p.paidAmount).sum
  if 0 < periodAmount ∧ periodAmount ≤ totalPaid then .error .alreadyPaid
  else if periodAmount < paid + totalPaid then .error .amountExceedsRent
  else if paid ≤ 0 then .error .invalidAmount
  else
    let pending := max (periodAmount - (totalPaid + paid)) 0
    .ok (upsertRentPayment rows nextId paymentDate
      { userId := userId
        tenantId := tenantId
        shopId := shopId
        month := month
        year := year
        amount := some shopRent
        paidAmount := some paid
        pendingAmount := some pending
        status := some (if pending = 0 then ("paid") else ("pending"))
        paymentDate := some paymentDate
        notes := none })

/-! ## Backup/restore engine (storage.ts `getFullBackup`,
`deleteAllUserData`, `validateBackupData`, `importBackupData`;
routes.ts `POST /api/backup/import`, lines 694-753) -/

/-- A `categories` row (identifier only; the remaining columns carry no
invariant the restore path depends on). -/
structure CategoryRow where
  id : Nat
  deriving Repr, DecidableEq

/-- A `buildings` row (identifier only). -/
structure BuildingRow where
  id : Nat
  deriving Repr, DecidableEq

/-- A `tenants` row (identifier only). -/
structure TenantRow where
  id : Nat
  deriving Repr, DecidableEq

/-- A `tenant_shops` link row. -/
structure TenantShopLink where
  id : Nat
  tenantId : Nat
  shopId : Nat
  deriving Repr, DecidableEq

/-- One user's slice of the relational store, as touched by backup/restore. -/
structure AppData where
  accounts : List Account
  categories : List CategoryRow
  buildings : List BuildingRow
  shops : List Shop
  tenants : List TenantRow
  txns : List Txn
  transfers : List Transfer
  rentPayments : List RentPayment
  tenantShops : List TenantShopLink
  deriving Repr, DecidableEq

/-- The parsed backup document.  Each of the eight exported arrays is `none`
when the key is missing or not an array.  Rows are typed, so the source's
per-record required-property and date-parse checks (which can only fail on
untyped input) always pass here; the remaining real failure mode of
`db.insert` with preserved primary keys — a duplicate-key violation — is
modelled in the insert step. -/
structure BackupDoc where
  accounts : Option (List Account)
  categories : Option (List CategoryRow)
  buildings : Option (List BuildingRow)
  shops : Option (List Shop)
  tenants : Option (List TenantRow)
  transactions : Option (List Txn)
  transfers : Option (List Transfer)
  rentPayments : Option (List RentPayment)
  deriving Repr, DecidableEq

/-- Import-time errors: `validateBackupData`'s "Invalid backup: missing or
invalid '<key>' array", and the datastore's duplicate-primary-key rejection
surfaced by a preserved-id insert. -/
inductive ImportError where
  | invalidBackupArray (key : String)
  | duplicateKey (table : String)
  deriving Repr, DecidableEq

/-- Model of `getFullBackup` (storage.ts:1009-1043): every row the user owns across the
eight exported tables, identifiers preserved.  `tenant_shops` rows are not
exported. -/
def getFullBackup (d : AppData) : BackupDoc :=
  { accounts := some d.accounts
    categories := some d.categories
    buildings := some d.buildings
    shops := some d.shops
    tenants := some d.tenants
    transactions := some d.txns
    transfers := some d.transfers
    rentPayments := some d.rentPayments }

/-- Model of `deleteAllUserData` (storage.ts:1046-1057): wipes the user's rows in every
table — including all `tenant_shops` rows (the source's
`db.delete(tenantShops)` carries no user filter). -/
def deleteAllUserData (_d : AppData) : AppData :=
  { accounts := []
    categories := []
    buildings := []
    shops := []
    tenants := []
    txns := []
    transfers := []
    rentPayments := []
    tenantShops := [] }

/-- Model of `validateBackupData` (storage.ts:1060-1117) on a parsed document: checks
the eight required arrays in source order and reports the first missing one.
(The per-record and per-date checks cannot fail on typed rows.) -/
def validateBackupData (doc : BackupDoc) : Option ImportError :=
  if doc.accounts.isNone then some (.invalidBackupArray ("accounts"))
  else if doc.categories.isNone then some (.invalidBackupArray ("categories"))
  else if doc.buildings.isNone then some (.invalidBackupArray ("buildings"))
  else if doc.shops.isNone then some (.invalidBackupArray ("shops"))
  else if doc.tenants.isNone then some (.invalidBackupArray ("tenants"))
  else if doc.transactions.isNone then
    some (.invalidBackupArray ("transactions"))
  else if doc.transfers.isNone then some (.invalidBackupArray ("transfers"))
  else if doc.rentPayments.isNone then
    some (.invalidBackupArray ("rentPayments"))
  else none

/-- One table's insert during import: a single `db.insert(...).values(rows)`
with preserved ids, skipped when the array is missing.  The datastore rejects
the statement atomically when a primary key collides (within the batch or with
an existing row). -/
def importStep {α : Type} (getId : α → Nat) (table : String) (cur : List α)
    (rows : Option (List α)) : List α × Option ImportError :=
  match rows with
  | none => (cur, none)
  | some rs =>
    if ((cur ++ rs).map getId).Nodup then (cur ++ rs, none)
    else (cur, some (.duplicateKey table))

/-- Model of `importBackupData` (storage.ts:1151-1251): inserts the document's rows
table by table with original identifiers preserved, in source order (tenants
before shops); the inserts are separate statements, so a failure leaves the
earlier tables inserted.  After a fully successful insertion the pass
`recalculateAllPendingRents` repairs the imported rent ledger.  (The source
then realigns the serial sequences, which this model does not track.)
Returns the resulting store and the first error, if any. -/
def importBackupData (d : AppData) (doc : BackupDoc) :
    AppData × Option ImportError :=
  let s1 := importStep Account.id ("bank_accounts") d.accounts doc.accounts
  let d1 := { d with accounts := s1.1 }
  match s1.2 with
  | some e => (d1, some e)
  | none =>
  let s2 := importStep CategoryRow.id ("categories") d1.categories
    doc.categories
  let d2 := { d1 with categories := s2.1 }
  match s2.2 with
  | some e => (d2, some e)
  | none =>
  let s3 := importStep BuildingRow.id ("buildings") d2.buildings doc.buildings
  let d3 := { d2 with buildings := s3.1 }
  match s3.2 with
  | some e => (d3, some e)
  | none =>
  let s4 := importStep TenantRow.id ("tenants") d3.tenants doc.tenants
  let d4 := { d3 with tenants := s4.1 }
  match s4.2 with
  | some e => (d4, some e)
  | none =>
  let s5 := importStep Shop.id ("shops") d4.shops doc.shops
  let d5 := { d4 with shops := s5.1 }
  match s5.2 with
  | some e => (d5, some e)
  | none =>
  let s6 := importStep Txn.id ("transactions") d5.txns doc.transactions
  let d6 := { d5 with txns := s6.1 }
  match s6.2 with
  | some e => (d6, some e)
  | none =>
  let s7 := importStep Transfer.id ("transfers") d6.transfers doc.transfers
  let d7 := { d6 with transfers := s7.1 }
  match s7.2 with
  | some e => (d7, some e)
  | none =>
  let s8 := importStep RentPayment.id ("rent_payments") d7.rentPayments
    doc.rentPayments
  let d8 := { d7 with rentPayments := s8.1 }
  match s8.2 with
  | some e => (d8, some e)
  | none =>
    ({ d8 with rentPayments := recalculateAllPendingRents d8.rentPayments },
     none)

/-- The JSON body answered by `POST /api/backup/import` on the paths that
reach the import logic. -/
structure ImportResponse where
  message : String
  error : Option ImportError
  restoreError : Option ImportError
  deriving Repr, DecidableEq

/-- The `catch` block of the import route (routes.ts:730-746): wipe again,
re-import the stashed export; report the original error in `error` and, when
the compensating re-import itself fails, its error separately in
`restoreError`. -/
def importRollback (dFail : AppData) (stash : BackupDoc) (e : ImportError) :
    ImportResponse × AppData :=
  match importBackupData (deleteAllUserData dFail) stash with
  | (d4, none) =>
    ({ message := "Import failed, previous data has been restored",
       error := some e, restoreError := none }, d4)
  | (d4, some e') =>
    ({ message :=
         "Import failed and data restoration failed. Please contact support.",
       error := some e, restoreError := some e' }, d4)

/-- Model of `POST /api/backup/import` (routes.ts:694-753) after JSON
parsing: stash
the user's current export, then try validation, wipe and import; any failure
inside the `try` lands in `importRollback`. -/
def importBackupRoute (d : AppData) (doc : BackupDoc) :
    ImportResponse × AppData :=
  let currentData := getFullBackup d
  match validateBackupData doc with
  | some e => importRollback d currentData e
  | none =>
    match importBackupData (deleteAllUserData d) doc with
    | (d2, none) =>
      ({ message := "Data imported successfully",
         error := none, restoreError := none }, d2)
    | (d2, some e) => importRollback d2 currentData e

/-! ## Auxiliary predicates used by the verification -/

/-- Primary-key uniqueness the datastore guarantees for the exported tables. -/
def WfAppData (d : AppData) : Prop :=
  (d.accounts.map Account.id).Nodup ∧
  (d.categories.map CategoryRow.id).Nodup ∧
  (d.buildings.map BuildingRow.id).Nodup ∧
  (d.shops.map Shop.id).Nodup ∧
  (d.tenants.map TenantRow.id).Nodup ∧
  (d.txns.map Txn.id).Nodup ∧
  (d.transfers.map Transfer.id).Nodup ∧
  (d.rentPayments.map RentPayment.id).Nodup

/-- Simulation relation between the run that performed a transfer
(`s₁`-side) and the run that did not (`s₂`-side), holding while unrelated
operations execute.  `s₀` is the store before the transfer, `row` the created
transfer row, `balA`/`balB` the pre-transfer balances of its two accounts. -/
structure TransferSim (s₀ : St) (a b : Nat) (X balA balB : Int)
    (row : Transfer) (s₁ s₂ : St) : Prop where
  balOther : ∀ c, c ≠ a → c ≠ b → lookupBalance s₁ c = lookupBalance s₂ c
  balA₂ : lookupBalance s₂ a = some balA
  balA₁ : lookupBalance s₁ a = some (balA - X)
  balB₂ : lookupBalance s₂ b = some balB
  balB₁ : lookupBalance s₁ b = some (balB + X)
  txnsEq : s₁.txns = s₂.txns
  nextTxnEq : s₁.nextTxnId = s₂.nextTxnId
  nextTxnGe : s₀.nextTxnId ≤ s₁.nextTxnId
  nextTrEq : s₁.nextTransferId = s₂.nextTransferId + 1
  rowLe : row.id ≤ s₂.nextTransferId
  bound₁ : ∀ t ∈ s₁.transfers, t.id < s₁.nextTransferId
  bound₂ : ∀ t ∈ s₂.transfers, t.id < s₂.nextTransferId
  findLow : ∀ id', id' < row.id →
    s₁.transfers.find? (fun t => t.id = id') =
      s₂.transfers.find? (fun t => t.id = id')
  findRow : s₁.transfers.find? (fun t => t.id = row.id) = some row
  old₁ : ∀ t ∈ s₁.transfers, t.id < row.id → t ∈ s₀.transfers
  old₂ : ∀ t ∈ s₂.transfers, t.id < row.id → t ∈ s₀.transfers
  oldTxn : ∀ t ∈ s₁.txns, t.id < s₀.nextTxnId → t ∈ s₀.txns

/-! ## General list lemmas -/

theorem find?_filter_of_imp {α : Type} (p q : α → Bool) (l : List α)
    (h : ∀ x, q x = true → p x = true) :
    (l.filter p).find? q = l.find? q := by
  induction l with
  | nil => rfl
  | cons x l ih =>
    by_cases hq : q x = true
    · have hp := h x hq
      simp [List.filter_cons, hp, List.find?_cons, hq, ih]
    · by_cases hp : p x = true <;>
        simp_all [List.filter_cons, List.find?_cons, ih]

theorem find?_append_single_neg {α : Type} (q : α → Bool) (l : List α) (x : α)
    (h : q x = false) : (l ++ [x]).find? q = l.find? q := by
  rw [List.find?_append]
  cases hf : l.find? q <;> simp [List.find?_cons, h]

theorem find?_append_left {α : Type} (q : α → Bool) (l l' : List α) (x : α)
    (h : l.find? q = some x) : (l ++ l').find? q = some x := by
  rw [List.find?_append, h]; rfl

/-! ## Lemmas about `setBalance` and `lookupBalance` -/

theorem setBalance_cons (x : Account) (l : List Account) (i : Nat) (v : Int) :
    setBalance (x :: l) i v =
      (if x.id = i then { x with balance := v } else x) :: setBalance l i v :=
  rfl

theorem find?_setBalance_self (l : List Account) (i : Nat) (v : Int) :
    (setBalance l i v).find? (fun a => a.id = i) =
      (l.find? fun a => a.id = i).map (fun a => { a with balance := v }) := by
  induction l with
  | nil => rfl
  | cons x l ih =>
    rw [setBalance_cons]
    by_cases h : x.id = i
    · rw [if_pos h, List.find?_cons_of_pos _ (by simpa using h),
        List.find?_cons_of_pos _ (by simpa using h)]
      rfl
    · rw [if_neg h, List.find?_cons_of_neg _ (by simpa using h),
        List.find?_cons_of_neg _ (by simpa using h), ih]

theorem find?_setBalance_ne (l : List Account) (i j : Nat) (v : Int)
    (h : j ≠ i) :
    (setBalance l i v).find? (fun a => a.id = j) =
      l.find? (fun a => a.id = j) := by
  induction l with
  | nil => rfl
  | cons x l ih =>
    rw [setBalance_cons]
    by_cases hx : x.id = i
    · have hxj : ¬x.id = j := by rw [hx]; exact fun hj => h hj.symm
      rw [if_pos hx, List.find?_cons_of_neg _ (by simpa using hxj),
        List.find?_cons_of_neg _ (by simpa using hxj), ih]
    · rw [if_neg hx]
      by_cases hj : x.id = j
      · rw [List.find?_cons_of_pos _ (by simpa using hj),
          List.find?_cons_of_pos _ (by simpa using hj)]
      · rw [List.find?_cons_of_neg _ (by simpa using hj),
          List.find?_cons_of_neg _ (by simpa using hj), ih]

/-! ## C8: payment reversal -/

theorem paidAmount_nonneg_step (rows : List RentPayment)
    (params : ReverseParams) (h : ∀ r ∈ rows, 0 ≤ r.paidAmount) :
    ∀ r ∈ updateRentPaymentAfterTransactionDelete rows params,
      0 ≤ r.paidAmount := by
  intro r hr
  unfold updateRentPaymentAfterTransactionDelete at hr
  cases hfind : findRentPayment rows params.userId params.tenantId
      params.shopId params.month params.year with
  | none => rw [hfind] at hr; exact h r hr
  | some rent =>
    rw [hfind] at hr
    simp only [List.mem_map] at hr
    obtain ⟨r₀, hr₀, hmap⟩ := hr
    by_cases hid : r₀.id = rent.id
    · rw [if_pos hid] at hmap
      rw [← hmap]
      exact le_max_right _ _
    · rw [if_neg hid] at hmap
      exact hmap ▸ h r₀ hr₀

/-- C8: `updateRentPaymentAfterTransactionDelete` on an existing
(tenant, shop, month, year) record sets `paidAmount` to
`max(existing.paidAmount - amountToReverse, 0)` and recomputes
`pendingAmount` and `status` from the record's own fixed `amount`, leaving
the other records in place; when no record matches the key it changes
nothing; and no sequence of reversals ever drives any record's `paidAmount`
below 0. -/
theorem reversePayment_spec :
    (∀ (rows : List RentPayment) (params : ReverseParams)
        (rent : RentPayment),
      findRentPayment rows params.userId params.tenantId params.shopId
          params.month params.year = some rent →
      (∃ r ∈ updateRentPaymentAfterTransactionDelete rows params,
        r.id = rent.id ∧ r.amount = rent.amount ∧
        r.paidAmount = max (rent.paidAmount - params.amount) 0 ∧
        r.pendingAmount =
          max (rent.amount - max (rent.paidAmount - params.amount) 0) 0 ∧
        r.status = (if r.pendingAmount = 0 then ("paid") else ("pending")) ∧
        0 ≤ r.paidAmount) ∧
      (∀ r' ∈ updateRentPaymentAfterTransactionDelete rows params,
        r'.id ≠ rent.id → r' ∈ rows)) ∧
    (∀ (rows : List RentPayment) (params : ReverseParams),
      findRentPayment rows params.userId params.tenantId params.shopId
          params.month params.year = none →
      updateRentPaymentAfterTransactionDelete rows params = rows) ∧
    (∀ (rows : List RentPayment) (ps : List ReverseParams),
      (∀ r ∈ rows, 0 ≤ r.paidAmount) →
      ∀ r ∈ ps.foldl updateRentPaymentAfterTransactionDelete rows,
        0 ≤ r.paidAmount) := by
  refine ⟨?_, ?_, ?_⟩
  · intro rows params rent hfind
    have hmem : rent ∈ rows := List.mem_of_find?_eq_some hfind
    constructor
    · refine ⟨{ rent with
          paidAmount := max (rent.paidAmount - params.amount) 0
          pendingAmount :=
            max (rent.amount - max (rent.paidAmount - params.amount) 0) 0
          status :=
            if max (rent.amount - max (rent.paidAmount - params.amount) 0) 0
                = 0 then ("paid") else ("pending") }, ?_, rfl, rfl, rfl, rfl,
        rfl, le_max_right _ _⟩
      unfold updateRentPaymentAfterTransactionDelete
      rw [hfind]
      exact List.mem_map.mpr ⟨rent, hmem, by rw [if_pos rfl]⟩
    · intro r' hr' hne
      unfold updateRentPaymentAfterTransactionDelete at hr'
      rw [hfind] at hr'
      simp only [List.mem_map] at hr'
      obtain ⟨r₀, hr₀, hmap⟩ := hr'
      by_cases hid : r₀.id = rent.id
      · exact absurd (by rw [← hmap, if_pos hid]; exact hid) hne
      · rw [if_neg hid] at hmap; exact hmap ▸ hr₀
  · intro rows params hfind
    unfold updateRentPaymentAfterTransactionDelete
    rw [hfind]
  · intro rows ps
    induction ps generalizing rows with
    | nil => intro h r hr; exact h r hr
    | cons p ps ih =>
      intro h r hr
      exact ih _ (paidAmount_nonneg_step rows p h) r hr

/-- Witness for C8: reversing ₹5,000 against a period that has ₹3,000 paid
clamps `paidAmount` at zero and restores the full pending amount. -/
theorem reversePayment_spec_witness :
    ∃ r ∈ updateRentPaymentAfterTransactionDelete
        [⟨1, 7, 2, 3, 1, 2024, 10000, 3000, 7000, ("pending"), none, none⟩]
        ⟨7, 2, 3, 1, 2024, 5000⟩,
      r.id = 1 ∧
      r.amount = (⟨1, 7, 2, 3, 1, 2024, 10000, 3000, 7000, ("pending"), none,
        none⟩ : RentPayment).amount ∧
      r.paidAmount = max ((3000 : Int) - 5000) 0 ∧
      r.pendingAmount = max ((10000 : Int) - max ((3000 : Int) - 5000) 0) 0 ∧
      r.status = (if r.pendingAmount = 0 then ("paid") else ("pending")) ∧
      0 ≤ r.paidAmount :=
  (reversePayment_spec.1
    [⟨1, 7, 2, 3, 1, 2024, 10000, 3000, 7000, ("pending"), none, none⟩]
    ⟨7, 2, 3, 1, 2024, 5000⟩
    ⟨1, 7, 2, 3, 1, 2024, 10000, 3000, 7000, ("pending"), none, none⟩
    (by decide)).1

/-! ## C10: `updateShop` without a `tenantId` key clears the allocation -/

/-- C10: any `updateShop` call whose updates object carries no `tenantId` key
(for example one changing only `monthlyRent`) falls into the
"`tenantId === null || undefined`" branch: it forces `allocated_at := null`
and `isOccupied := false` on the stored row while leaving the stored
`tenantId` itself unchanged (and, since the resulting row has no allocation
date, the rent recalculation step does not run). -/
theorem updateShop_clears_allocation (shop : Shop) (u : ShopUpdates)
    (now : Date) (rows : List RentPayment) (n : Nat)
    (h : u.tenantId = none) :
    (updateShop shop u now rows n).1.allocated_at = none ∧
    (updateShop shop u now rows n).1.isOccupied = false ∧
    (updateShop shop u now rows n).1.tenantId = shop.tenantId ∧
    (updateShop shop u now rows n).1.monthlyRent =
      u.monthlyRent.getD shop.monthlyRent ∧
    (updateShop shop u now rows n).2.1 = rows ∧
    (updateShop shop u now rows n).2.2 = n := by
  simp [updateShop, normalizeShopUpdates, applyShopUpdates,
    updateShopRentRecalc, tenantTruthy, tenantNullOrUndefined, h]

/-- Witness for C10: updating only `monthlyRent` on an occupied, allocated
shop nulls the allocation and de-occupies it while the tenant reference
stays. -/
theorem updateShop_clears_allocation_witness :
    (updateShop ⟨3, 7, 1, 10000, 0, true, false, some 2, some ⟨2024, 1, 15⟩⟩
        { monthlyRent := some 12000 } ⟨2024, 4, 10⟩ [] 1).1.allocated_at
        = none ∧
    (updateShop ⟨3, 7, 1, 10000, 0, true, false, some 2, some ⟨2024, 1, 15⟩⟩
        { monthlyRent := some 12000 } ⟨2024, 4, 10⟩ [] 1).1.isOccupied
        = false ∧
    (updateShop ⟨3, 7, 1, 10000, 0, true, false, some 2, some ⟨2024, 1, 15⟩⟩
        { monthlyRent := some 12000 } ⟨2024, 4, 10⟩ [] 1).1.tenantId
        = (⟨3, 7, 1, 10000, 0, true, false, some 2, some ⟨2024, 1, 15⟩⟩ :
            Shop).tenantId ∧
    (updateShop ⟨3, 7, 1, 10000, 0, true, false, some 2, some ⟨2024, 1, 15⟩⟩
        { monthlyRent := some 12000 } ⟨2024, 4, 10⟩ [] 1).1.monthlyRent
        = (some (12000 : Int)).getD (10000 : Int) ∧
    (updateShop ⟨3, 7, 1, 10000, 0, true, false, some 2, some ⟨2024, 1, 15⟩⟩
        { monthlyRent := some 12000 } ⟨2024, 4, 10⟩ [] 1).2.1 = [] ∧
    (updateShop ⟨3, 7, 1, 10000, 0, true, false, some 2, some ⟨2024, 1, 15⟩⟩
        { monthlyRent := some 12000 } ⟨2024, 4, 10⟩ [] 1).2.2 = 1 :=
  updateShop_clears_allocation
    ⟨3, 7, 1, 10000, 0, true, false, some 2, some ⟨2024, 1, 15⟩⟩
    { monthlyRent := some 12000 } ⟨2024, 4, 10⟩ [] 1 rfl

/-! ## C1: the ledger invariant across the rent-period operations -/

theorem filter_rentKey_singleton (rows : List RentPayment)
    (hN : (rows.map rentKey).Nodup) (r : RentPayment) (hr : r ∈ rows) :
    rows.filter (fun p => rentKey p = rentKey r) = [r] := by
  induction rows with
  | nil => cases hr
  | cons x xs ih =>
    rw [List.map_cons, List.nodup_cons] at hN
    rcases List.mem_cons.mp hr with rfl | hr'
    · have hnil : xs.filter (fun p => rentKey p = rentKey r) = [] := by
        refine List.filter_eq_nil_iff.mpr fun p hp => ?_
        simp only [decide_eq_true_eq]
        exact fun hk => hN.1 (hk ▸ List.mem_map_of_mem rentKey hp)
      rw [List.filter_cons_of_pos (by simp), hnil]
    · have hxk : ¬rentKey x = rentKey r := fun hk =>
        hN.1 (hk ▸ List.mem_map_of_mem rentKey hr')
      rw [List.filter_cons_of_neg (by simpa using hxk)]
      exact ih hN.2 hr'

theorem recalculateAll_invariant (rows : List RentPayment)
    (hN : (rows.map rentKey).Nodup) :
    ∀ p ∈ recalculateAllPendingRents rows, rentInvariant p := by
  intro p hp
  unfold recalculateAllPendingRents at hp
  simp only [List.mem_map] at hp
  obtain ⟨r, hr, hmap⟩ := hp
  rw [filter_rentKey_singleton rows hN r hr] at hmap
  rw [← hmap]
  constructor
  · simp [List.sum_cons]
  · simp [List.sum_cons]

theorem recalculateAll_id (rows : List RentPayment)
    (hN : (rows.map rentKey).Nodup)
    (hinv : ∀ p ∈ rows, rentInvariant p) :
    recalculateAllPendingRents rows = rows := by
  unfold recalculateAllPendingRents
  have h : ∀ r ∈ rows,
      (let group := rows.filter fun p => rentKey p = rentKey r
       let amount := ((group.head?).map (fun p => p.amount)).getD r.amount
       let totalPaid := (group.map fun p => p.paidAmount).sum
       let pending := max (amount - totalPaid) 0
       ({ r with pendingAmount := pending,
                 status := if pending = 0 then ("paid") else ("pending") } :
         RentPayment)) = r := by
    intro r hr
    obtain ⟨h1, h2⟩ := hinv r hr
    simp only [filter_rentKey_singleton rows hN r hr, List.head?_cons,
      List.map_cons, List.map_nil, List.sum_cons, List.sum_nil, add_zero,
      Option.map_some', Option.getD_some]
    rw [← h1, ← h2]
  exact (List.map_congr_left h).trans (List.map_id rows)

theorem generate_invariant (u t s : Nat) (rent : Int) (hrent : 0 < rent)
    (periods : List (Nat × Nat)) :
    ∀ (rows : List RentPayment) (n : Nat), (∀ p ∈ rows, rentInvariant p) →
    ∀ p ∈ (generateMissingRentPayments u t s rent periods rows n).1,
      rentInvariant p := by
  induction periods with
  | nil =>
    intro rows n h p hp
    exact h p hp
  | cons ym rest ih =>
    obtain ⟨y, m⟩ := ym
    intro rows n h p hp
    rw [generateMissingRentPayments] at hp
    by_cases hf : (findRentPayment rows u t s m y).isSome
    · rw [if_pos hf] at hp
      exact ih rows n h p hp
    · rw [if_neg hf] at hp
      refine ih _ _ ?_ p hp
      intro q hq
      rcases List.mem_append.mp hq with hq' | hq'
      · exact h q hq'
      · rw [List.mem_singleton.mp hq']
        refine ⟨?_, ?_⟩
        · show rent = max (rent - 0) 0
          rw [sub_zero, max_eq_left hrent.le]
        · show _ = if rent = 0 then _ else _
          rw [if_neg (by exact hrent.ne')]

theorem upsert_invariant_update (rows : List RentPayment) (nextId now : Nat)
    (data : UpsertRentData) (prev : RentPayment)
    (hfind : findRentPayment rows data.userId data.tenantId data.shopId
      data.month data.year = some prev)
    (hamt : data.amount = none ∨ data.amount = some prev.amount)
    (hNid : (rows.map fun p => p.id).Nodup)
    (hinv : ∀ p ∈ rows, rentInvariant p) :
    ∀ p ∈ (upsertRentPayment rows nextId now data).1, rentInvariant p := by
  intro p hp
  have hprevmem : prev ∈ rows := List.mem_of_find?_eq_some hfind
  rw [upsertRentPayment, hfind] at hp
  simp only [List.mem_map] at hp
  obtain ⟨r₀, hr₀, hmap⟩ := hp
  by_cases hid : r₀.id = prev.id
  · have hr₀eq : r₀ = prev := List.inj_on_of_nodup_map hNid hr₀ hprevmem hid
    rw [if_pos hid] at hmap
    have hA : data.amount.getD prev.amount = prev.amount := by
      rcases hamt with h | h <;> rw [h] <;> rfl
    rw [← hmap]
    refine ⟨?_, ?_⟩
    · show max (data.amount.getD prev.amount - _) 0 = max (r₀.amount - _) 0
      rw [hA, hr₀eq]
    · show (if max (data.amount.getD prev.amount - _) 0 = 0 then _ else _) =
        if max (data.amount.getD prev.amount - _) 0 = 0 then _ else _
      rfl
  · rw [if_neg hid] at hmap
    exact hmap ▸ hinv r₀ hr₀

theorem upsert_invariant_insert (rows : List RentPayment) (nextId now : Nat)
    (data : UpsertRentData)
    (hfind : findRentPayment rows data.userId data.tenantId data.shopId
      data.month data.year = none)
    (hpend : data.pendingAmount.getD 0 =
      max (data.amount.getD 0 - data.paidAmount.getD 0) 0)
    (hstat : data.status = none ∨ data.status =
      some (if data.pendingAmount.getD 0 = 0 then ("paid") else ("pending")))
    (hinv : ∀ p ∈ rows, rentInvariant p) :
    ∀ p ∈ (upsertRentPayment rows nextId now data).1, rentInvariant p := by
  intro p hp
  rw [upsertRentPayment, hfind] at hp
  rcases List.mem_append.mp hp with hp' | hp'
  · exact hinv p hp'
  · rw [List.mem_singleton.mp hp']
    refine ⟨hpend, ?_⟩
    show data.status.getD _ = _
    rcases hstat with h | h <;> rw [h] <;> rfl

theorem reversal_invariant (rows : List RentPayment) (params : ReverseParams)
    (hNid : (rows.map fun p => p.id).Nodup)
    (hinv : ∀ p ∈ rows, rentInvariant p) :
    ∀ p ∈ updateRentPaymentAfterTransactionDelete rows params,
      rentInvariant p := by
  intro p hp
  unfold updateRentPaymentAfterTransactionDelete at hp
  cases hfind : findRentPayment rows params.userId params.tenantId
      params.shopId params.month params.year with
  | none => rw [hfind] at hp; exact hinv p hp
  | some rent =>
    have hrentmem : rent ∈ rows := List.mem_of_find?_eq_some hfind
    rw [hfind] at hp
    simp only [List.mem_map] at hp
    obtain ⟨r₀, hr₀, hmap⟩ := hp
    by_cases hid : r₀.id = rent.id
    · have hr₀eq : r₀ = rent := List.inj_on_of_nodup_map hNid hr₀ hrentmem hid
      rw [if_pos hid] at hmap
      rw [← hmap]
      exact ⟨by rw [hr₀eq], rfl⟩
    · rw [if_neg hid] at hmap
      exact hmap ▸ hinv r₀ hr₀

/-- C1 (amended): the ledger invariant
`pendingAmount = max(amount - paidAmount, 0)` with `status = "paid"` iff
pending is zero holds for every record after each rent-period operation,
under the conditions the code actually requires: accrual generation
establishes it when the shop's `monthlyRent` is positive; the payment upsert
preserves it when the supplied `amount` is absent or agrees with the stored
row's `amount` (update case), respectively when the supplied
`pendingAmount`/`status` are consistent with the supplied
`amount`/`paidAmount` (insert case); payment reversal preserves it
unconditionally; and the post-import recalculation pass establishes it
whenever the natural key (tenant, shop, month, year) is unique. -/
theorem rentInvariant_after_core_ops :
    (∀ (u t s : Nat) (rent : Int) (periods : List (Nat × Nat))
        (rows : List RentPayment) (n : Nat), 0 < rent →
      (∀ p ∈ rows, rentInvariant p) →
      ∀ p ∈ (generateMissingRentPayments u t s rent periods rows n).1,
        rentInvariant p) ∧
    (∀ (rows : List RentPayment) (nextId now : Nat) (data : UpsertRentData)
        (prev : RentPayment),
      findRentPayment rows data.userId data.tenantId data.shopId data.month
        data.year = some prev →
      (data.amount = none ∨ data.amount = some prev.amount) →
      ((rows.map fun p => p.id).Nodup) →
      (∀ p ∈ rows, rentInvariant p) →
      ∀ p ∈ (upsertRentPayment rows nextId now data).1, rentInvariant p) ∧
    (∀ (rows : List RentPayment) (nextId now : Nat) (data : UpsertRentData),
      findRentPayment rows data.userId data.tenantId data.shopId data.month
        data.year = none →
      data.pendingAmount.getD 0 =
        max (data.amount.getD 0 - data.paidAmount.getD 0) 0 →
      (data.status = none ∨ data.status =
        some (if data.pendingAmount.getD 0 = 0 then ("paid")
          else ("pending"))) →
      (∀ p ∈ rows, rentInvariant p) →
      ∀ p ∈ (upsertRentPayment rows nextId now data).1, rentInvariant p) ∧
    (∀ (rows : List RentPayment) (params : ReverseParams),
      ((rows.map fun p => p.id).Nodup) →
      (∀ p ∈ rows, rentInvariant p) →
      ∀ p ∈ updateRentPaymentAfterTransactionDelete rows params,
        rentInvariant p) ∧
    (∀ rows : List RentPayment, (rows.map rentKey).Nodup →
      ∀ p ∈ recalculateAllPendingRents rows, rentInvariant p) :=
  ⟨fun u t s rent periods rows n hrent =>
      generate_invariant u t s rent hrent periods rows n,
   fun rows nextId now data prev hfind hamt hNid hinv =>
      upsert_invariant_update rows nextId now data prev hfind hamt hNid hinv,
   fun rows nextId now data hfind hpend hstat hinv =>
      upsert_invariant_insert rows nextId now data hfind hpend hstat hinv,
   fun rows params hNid hinv => reversal_invariant rows params hNid hinv,
   fun rows hN => recalculateAll_invariant rows hN⟩

/-- Counterexample to C1 as stated: `upsertRentPayment` recomputes
`pendingAmount` against the caller-supplied `amount` (here ₹12,000, the
shop's new rent) while leaving the row's stored `amount` (₹10,000) in place,
so after paying ₹6,000 the row carries `pendingAmount = 6000` instead of
`max(10000 - 6000, 0) = 4000`. -/
theorem rentInvariant_after_core_ops_cex :
    ¬ ∀ p ∈ (upsertRentPayment
        [⟨1, 7, 2, 3, 1, 2024, 10000, 0, 10000, ("pending"), none, none⟩] 2 99
        ⟨7, 2, 3, 1, 2024, some 12000, some 6000, some 0, none, none,
          none⟩).1,
      rentInvariant p := by
  decide

/-- Witness for C1: a consistent upsert (supplied amount equal to the stored
amount) preserves the invariant on a concrete store. -/
theorem rentInvariant_after_core_ops_witness :
    ∀ p ∈ (upsertRentPayment
        [⟨1, 7, 2, 3, 1, 2024, 10000, 0, 10000, ("pending"), none, none⟩] 2 99
        ⟨7, 2, 3, 1, 2024, some 10000, some 6000, some 4000, none, none,
          none⟩).1,
      rentInvariant p :=
  rentInvariant_after_core_ops.2.1
    [⟨1, 7, 2, 3, 1, 2024, 10000, 0, 10000, ("pending"), none, none⟩] 2 99
    ⟨7, 2, 3, 1, 2024, some 10000, some 6000, some 4000, none, none, none⟩
    ⟨1, 7, 2, 3, 1, 2024, 10000, 0, 10000, ("pending"), none, none⟩
    (by decide) (Or.inr rfl) (by decide) (by decide)

/-! ## C3: rejection behaviour of the payment entry path -/

/-- C3 (amended): the payment path always rejects an overpayment (total paid
for the period plus this payment exceeding the period's fixed amount) and
always rejects a non-positive payment, and a rejection returns before the
upsert, so no `RentPayment` row is created or modified; but the error label
depends on the branch: a period that is already fully paid is rejected with
`AlreadyPaid` (not `AmountExceedsRentDue`), an overpayment on a not-yet-full
period with `AmountExceedsRentDue`, and a non-positive amount that passes
those two checks with `InvalidAmount`. -/
theorem applyPayment_rejections (rows : List RentPayment) (nextId : Nat)
    (userId tenantId shopId month year : Nat) (paid shopRent : Int)
    (paymentDate : Nat) (P T : Int)
    (hP : P = ((((rows.filter fun p => p.tenantId = tenantId ∧
        p.shopId = shopId ∧ p.month = month ∧
        p.year = year).head?).map fun p => p.amount).getD shopRent))
    (hT : T = (((rows.filter fun p => p.tenantId = tenantId ∧
        p.shopId = shopId ∧ p.month = month ∧
        p.year = year).map fun p => p.paidAmount).sum)) :
    (0 < P ∧ P ≤ T →
      applyPayment rows nextId userId tenantId shopId month year paid
        shopRent paymentDate = .error .alreadyPaid) ∧
    (¬(0 < P ∧ P ≤ T) → P < paid + T →
      applyPayment rows nextId userId tenantId shopId month year paid
        shopRent paymentDate = .error .amountExceedsRent) ∧
    (¬(0 < P ∧ P ≤ T) → ¬P < paid + T → paid ≤ 0 →
      applyPayment rows nextId userId tenantId shopId month year paid
        shopRent paymentDate = .error .invalidAmount) ∧
    (P < paid + T →
      ∃ e, applyPayment rows nextId userId tenantId shopId month year paid
        shopRent paymentDate = .error e) ∧
    (paid ≤ 0 →
      ∃ e, applyPayment rows nextId userId tenantId shopId month year paid
        shopRent paymentDate = .error e) := by
  subst hP hT
  refine ⟨?_, ?_, ?_, ?_, ?_⟩
  · intro hfull
    simp only [applyPayment]
    split_ifs <;> rfl
  · intro hnf hex
    simp only [applyPayment]
    split_ifs <;> rfl
  · intro hnf hnex hnp
    simp only [applyPayment]
    split_ifs <;> rfl
  · intro hex
    simp only [applyPayment]
    split_ifs <;> exact ⟨_, rfl⟩
  · intro hnp
    simp only [applyPayment]
    split_ifs <;> exact ⟨_, rfl⟩

/-- Counterexample to C3 as stated: after ₹6,000 and ₹4,000 have been paid
against the ₹10,000 period (so the record holds `paidAmount = 10000`), a
further ₹1 payment is rejected — but through the `isFullyPaidForPeriod`
guard with the `AlreadyPaid` toast, not with `AmountExceedsRentDue`. -/
theorem applyPayment_rejections_cex :
    applyPayment
      [⟨1, 7, 2, 3, 1, 2024, 10000, 10000, 0, ("paid"), none, none⟩]
      2 7 2 3 1 2024 1 10000 99 = .error .alreadyPaid ∧
    PaymentError.alreadyPaid ≠ PaymentError.amountExceedsRent :=
  ⟨rfl, by decide⟩

/-- Witness for C3: an overpayment against a partially-paid period (₹6,000
already paid of ₹10,000, attempting ₹5,000 more) is rejected with the
exceeds-rent error. -/
theorem applyPayment_rejections_witness :
    applyPayment
      [⟨1, 7, 2, 3, 1, 2024, 10000, 6000, 4000, ("pending"), none, none⟩]
      2 7 2 3 1 2024 5000 10000 99 = .error .amountExceedsRent :=
  (applyPayment_rejections
    [⟨1, 7, 2, 3, 1, 2024, 10000, 6000, 4000, ("pending"), none, none⟩]
    2 7 2 3 1 2024 5000 10000 99 10000 6000 (by decide) (by decide)).2.1
    (by decide) (by decide)

/-! ## C5: transaction creation and deletion -/

theorem lookup_set_self (l : List Account) (i : Nat) (v : Int) (a : Account)
    (h : l.find? (fun x => x.id = i) = some a) :
    ((setBalance l i v).find? (fun x => x.id = i)).map
      (fun x => x.balance) = some v := by
  rw [find?_setBalance_self, h]; rfl

theorem lookup_set_ne (l : List Account) (i j : Nat) (v : Int) (h : j ≠ i) :
    ((setBalance l i v).find? (fun x => x.id = j)).map (fun x => x.balance) =
      (l.find? (fun x => x.id = j)).map (fun x => x.balance) := by
  rw [find?_setBalance_ne l i j v h]

/-- C5: `createTransaction` adds the amount for an income and subtracts it
for an expense, touching no other account's balance; it fails with
"Account not found" when the account id does not resolve and with
"Invalid transaction type" when the type is neither income nor expense (both
before any write; the source throws inside `db.transaction`, so nothing is
persisted).  `deleteTransaction` applies the exact inverse, failing when the
transaction does not exist or has no associated account.  The closing
conjunct is the spec's Scenario C: 5000 + income 2000 = 7000, then expense
1500 = 5500, then deleting the income leaves 3500. -/
theorem balanceMutator_transaction_spec :
    (∀ (s : St) (tx : InsertTxn) (a : Account),
      findAccount s tx.accountId = some a → tx.ttype = ("income") →
      ∃ s' row, createTransaction s tx = .ok (s', row) ∧
        lookupBalance s' tx.accountId = some (a.balance + tx.amount) ∧
        s'.txns = s.txns ++ [row] ∧ row.accountId = some tx.accountId ∧
        row.ttype = tx.ttype ∧ row.amount = tx.amount ∧
        ∀ c, c ≠ tx.accountId → lookupBalance s' c = lookupBalance s c) ∧
    (∀ (s : St) (tx : InsertTxn) (a : Account),
      findAccount s tx.accountId = some a → tx.ttype = ("expense") →
      ∃ s' row, createTransaction s tx = .ok (s', row) ∧
        lookupBalance s' tx.accountId = some (a.balance - tx.amount) ∧
        s'.txns = s.txns ++ [row] ∧
        ∀ c, c ≠ tx.accountId → lookupBalance s' c = lookupBalance s c) ∧
    (∀ (s : St) (tx : InsertTxn), findAccount s tx.accountId = none →
      createTransaction s tx = .error .accountNotFound) ∧
    (∀ (s : St) (tx : InsertTxn) (a : Account),
      findAccount s tx.accountId = some a → tx.ttype ≠ ("income") →
      tx.ttype ≠ ("expense") →
      createTransaction s tx = .error .invalidTransactionType) ∧
    (∀ (s : St) (id : Nat), (s.txns.find? fun t => t.id = id) = none →
      deleteTransaction s id = .error .transactionNotFound) ∧
    (∀ (s : St) (id : Nat) (txn : Txn),
      (s.txns.find? fun t => t.id = id) = some txn → txn.accountId = none →
      deleteTransaction s id = .error .transactionHasNoAccount) ∧
    (∀ (s : St) (id : Nat) (txn : Txn) (accId : Nat) (a : Account),
      (s.txns.find? fun t => t.id = id) = some txn →
      txn.accountId = some accId → findAccount s accId = some a →
      txn.ttype = ("income") →
      ∃ s', deleteTransaction s id = .ok s' ∧
        lookupBalance s' accId = some (a.balance - txn.amount) ∧
        s'.txns = s.txns.filter fun t => ¬t.id = id) ∧
    (∀ (s : St) (id : Nat) (txn : Txn) (accId : Nat) (a : Account),
      (s.txns.find? fun t => t.id = id) = some txn →
      txn.accountId = some accId → findAccount s accId = some a →
      txn.ttype = ("expense") →
      ∃ s', deleteTransaction s id = .ok s' ∧
        lookupBalance s' accId = some (a.balance + txn.amount) ∧
        s'.txns = s.txns.filter fun t => ¬t.id = id) ∧
    ((do
      let r1 ← createTransaction ⟨[⟨1, 7, 5000⟩], [], [], 1, 1⟩
        ⟨7, 1, ("income"), 2000⟩
      let r2 ← createTransaction r1.1 ⟨7, 1, ("expense"), 1500⟩
      let s3 ← deleteTransaction r2.1 r1.2.id
      pure (lookupBalance r1.1 1, lookupBalance r2.1 1, lookupBalance s3 1)) =
      .ok (some 7000, some 5500, some 3500)) := by
  refine ⟨?_, ?_, ?_, ?_, ?_, ?_, ?_, ?_, rfl⟩
  · intro s tx a hfind hty
    have h : createTransaction s tx = .ok
        ({ s with
            accounts :=
              setBalance s.accounts tx.accountId (a.balance + tx.amount)
            txns := s.txns ++
              [⟨s.nextTxnId, tx.userId, some tx.accountId, tx.ttype,
                tx.amount⟩]
            nextTxnId := s.nextTxnId + 1 },
          ⟨s.nextTxnId, tx.userId, some tx.accountId, tx.ttype,
            tx.amount⟩) := by
      simp only [createTransaction, hfind]
      rw [if_pos hty]
    refine ⟨_, _, h, ?_, rfl, rfl, rfl, rfl, ?_⟩
    · exact lookup_set_self s.accounts tx.accountId _ a hfind
    · intro c hc
      exact lookup_set_ne s.accounts tx.accountId c _ hc
  · intro s tx a hfind hty
    have hne : ¬tx.ttype = ("income") := by
      rw [hty]; decide
    have h : createTransaction s tx = .ok
        ({ s with
            accounts :=
              setBalance s.accounts tx.accountId (a.balance - tx.amount)
            txns := s.txns ++
              [⟨s.nextTxnId, tx.userId, some tx.accountId, tx.ttype,
                tx.amount⟩]
            nextTxnId := s.nextTxnId + 1 },
          ⟨s.nextTxnId, tx.userId, some tx.accountId, tx.ttype,
            tx.amount⟩) := by
      simp only [createTransaction, hfind]
      rw [if_neg hne, if_pos hty]
    refine ⟨_, _, h, ?_, rfl, ?_⟩
    · exact lookup_set_self s.accounts tx.accountId _ a hfind
    · intro c hc
      exact lookup_set_ne s.accounts tx.accountId c _ hc
  · intro s tx hfind
    simp [createTransaction, hfind]
  · intro s tx a hfind h1 h2
    simp only [createTransaction, hfind]
    rw [if_neg h1, if_neg h2]
  · intro s id hfind
    simp [deleteTransaction, hfind]
  · intro s id txn hfind hacc
    simp [deleteTransaction, hfind, hacc]
  · intro s id txn accId a hfind hacc hfa hty
    have h : deleteTransaction s id = .ok
        { s with
            accounts := setBalance s.accounts accId (a.balance - txn.amount)
            txns := s.txns.filter fun t => ¬t.id = id } := by
      simp only [deleteTransaction, hfind, hacc, hfa]
      rw [if_pos hty]
    refine ⟨_, h, ?_, rfl⟩
    exact lookup_set_self s.accounts accId _ a hfa
  · intro s id txn accId a hfind hacc hfa hty
    have hne : ¬txn.ttype = ("income") := by
      rw [hty]; decide
    have h : deleteTransaction s id = .ok
        { s with
            accounts := setBalance s.accounts accId (a.balance + txn.amount)
            txns := s.txns.filter fun t => ¬t.id = id } := by
      simp only [deleteTransaction, hfind, hacc, hfa]
      rw [if_neg hne, if_pos hty]
    refine ⟨_, h, ?_, rfl⟩
    exact lookup_set_self s.accounts accId _ a hfa

/-- Witness for C5: the income step of Scenario C — ₹2,000 of income on an
account holding ₹5,000 yields ₹7,000 and appends the transaction row. -/
theorem balanceMutator_transaction_spec_witness :
    ∃ s' row,
      createTransaction ⟨[⟨1, 7, 5000⟩], [], [], 1, 1⟩
        ⟨7, 1, ("income"), 2000⟩ = .ok (s', row) ∧
      lookupBalance s' 1 = some ((5000 : Int) + 2000) ∧
      s'.txns = ([] : List Txn) ++ [row] ∧ row.accountId = some 1 ∧
      row.ttype = ("income") ∧ row.amount = 2000 ∧
      ∀ c, c ≠ 1 →
        lookupBalance s' c =
          lookupBalance ⟨[⟨1, 7, 5000⟩], [], [], 1, 1⟩ c :=
  balanceMutator_transaction_spec.1 ⟨[⟨1, 7, 5000⟩], [], [], 1, 1⟩
    ⟨7, 1, ("income"), 2000⟩ ⟨1, 7, 5000⟩ rfl rfl

/-! ## C6: transfer creation -/

/-- C6: `createTransfer` rejects with "Insufficient balance" whenever the
source balance is below the amount and with "One or both accounts not found"
when either account is missing; both checks run before any write (and the
source wraps the operation in `db.transaction`), so a failure leaves every
balance unchanged and writes no transfer row — in this embedding an error
carries no successor store.  Otherwise (for the distinct accounts the data
model prescribes) it debits the source and credits the destination by
exactly the amount, changes no other balance, and appends the transfer row.
The closing conjunct is Scenario D: a ₹1,000 transfer from a ₹500 account is
rejected. -/
theorem createTransfer_spec :
    (∀ (s : St) (tr : InsertTransfer) (fa ta : Account),
      findAccount s tr.fromAccountId = some fa →
      findAccount s tr.toAccountId = some ta →
      fa.balance < tr.amount →
      createTransfer s tr = .error .insufficientBalance) ∧
    (∀ (s : St) (tr : InsertTransfer),
      findAccount s tr.fromAccountId = none ∨
        findAccount s tr.toAccountId = none →
      createTransfer s tr = .error .oneOrBothAccountsNotFound) ∧
    (∀ (s : St) (tr : InsertTransfer) (fa ta : Account),
      findAccount s tr.fromAccountId = some fa →
      findAccount s tr.toAccountId = some ta →
      ¬fa.balance < tr.amount →
      tr.toAccountId ≠ tr.fromAccountId →
      ∃ s' row, createTransfer s tr = .ok (s', row) ∧
        lookupBalance s' tr.fromAccountId = some (fa.balance - tr.amount) ∧
        lookupBalance s' tr.toAccountId = some (ta.balance + tr.amount) ∧
        s'.transfers = s.transfers ++ [row] ∧
        row.fromAccountId = tr.fromAccountId ∧
        row.toAccountId = tr.toAccountId ∧ row.amount = tr.amount ∧
        ∀ c, c ≠ tr.fromAccountId → c ≠ tr.toAccountId →
          lookupBalance s' c = lookupBalance s c) ∧
    (createTransfer ⟨[⟨1, 7, 500⟩, ⟨2, 7, 100⟩], [], [], 1, 1⟩
      ⟨7, 1, 2, 1000⟩ = .error .insufficientBalance) := by
  refine ⟨?_, ?_, ?_, rfl⟩
  · intro s tr fa ta hfa hta hlt
    simp only [createTransfer, hfa, hta]
    rw [if_pos hlt]
  · intro s tr hmiss
    rcases hmiss with h | h
    · simp [createTransfer, h]
    · cases hf : findAccount s tr.fromAccountId <;>
        simp [createTransfer, hf, h]
  · intro s tr fa ta hfa hta hlt htf
    have h : createTransfer s tr = .ok
        ({ s with
            accounts :=
              setBalance
                (setBalance s.accounts tr.fromAccountId
                  (fa.balance - tr.amount))
                tr.toAccountId (ta.balance + tr.amount)
            transfers := s.transfers ++
              [⟨s.nextTransferId, tr.userId, tr.fromAccountId,
                tr.toAccountId, tr.amount⟩]
            nextTransferId := s.nextTransferId + 1 },
          ⟨s.nextTransferId, tr.userId, tr.fromAccountId, tr.toAccountId,
            tr.amount⟩) := by
      simp only [createTransfer, hfa, hta]
      rw [if_neg hlt]
    refine ⟨_, _, h, ?_, ?_, rfl, rfl, rfl, rfl, ?_⟩
    · show ((setBalance _ tr.toAccountId _).find? _).map _ = _
      rw [find?_setBalance_ne _ _ _ _ (Ne.symm htf)]
      exact lookup_set_self s.accounts tr.fromAccountId _ fa hfa
    · have hinner : (setBalance s.accounts tr.fromAccountId
          (fa.balance - tr.amount)).find?
            (fun x => x.id = tr.toAccountId) = some ta := by
        rw [find?_setBalance_ne _ _ _ _ htf]; exact hta
      exact lookup_set_self _ tr.toAccountId _ _ hinner
    · intro c hcf hct
      show ((setBalance _ tr.toAccountId _).find? _).map _ = _
      rw [find?_setBalance_ne _ _ _ _ hct]
      exact lookup_set_ne s.accounts tr.fromAccountId c _ hcf

/-- Witness for C6: Scenario D through the theorem — the ₹1,000 transfer from
the ₹500 account is rejected with the insufficient-balance error. -/
theorem createTransfer_spec_witness :
    createTransfer ⟨[⟨1, 7, 500⟩, ⟨2, 7, 100⟩], [], [], 1, 1⟩
      ⟨7, 1, 2, 1000⟩ = .error .insufficientBalance :=
  createTransfer_spec.1 ⟨[⟨1, 7, 500⟩, ⟨2, 7, 100⟩], [], [], 1, 1⟩
    ⟨7, 1, 2, 1000⟩ ⟨1, 7, 500⟩ ⟨2, 7, 100⟩ rfl rfl (by decide)

/-! ## C2 and C4: the rent accrual generator -/

theorem lastPeriodCreateShop_eq_sweep (now : Date) :
    lastPeriodCreateShop now = lastPeriodSweep now := by
  unfold lastPeriodCreateShop lastPeriodSweep
  split <;> rfl

theorem lastPeriodSweep_index (now : Date) (hm1 : 1 ≤ now.month)
    (hm2 : now.month ≤ 12) (hy : 1 ≤ now.year) :
    monthIndex (lastPeriodSweep now).2 (lastPeriodSweep now).1 + 1 =
      monthIndex now.year now.month ∧
    1 ≤ (lastPeriodSweep now).1 ∧ (lastPeriodSweep now).1 ≤ 12 := by
  unfold lastPeriodSweep monthIndex
  split <;> simp <;> omega

theorem mem_genPeriods (y m ly lm : Nat) :
    1 ≤ m → m ≤ 12 → 1 ≤ lm → lm ≤ 12 → ∀ y' m',
    ((y', m') ∈ genPeriods y m ly lm ↔
      1 ≤ m' ∧ m' ≤ 12 ∧ monthIndex y m ≤ monthIndex y' m' ∧
        monthIndex y' m' ≤ monthIndex ly lm) := by
  induction y, m, ly, lm using genPeriods.induct with
  | case1 y m ly lm hguard ih1 ih2 =>
    intro hm1 hm2 hl1 hl2 y' m'
    rw [genPeriods, if_pos hguard]
    by_cases h13 : m + 1 > 12
    · rw [if_pos h13, List.mem_cons,
        ih1 h13 (by omega) (by omega) hl1 hl2 y' m']
      simp only [Prod.mk.injEq, monthIndex]
      omega
    · rw [if_neg h13, List.mem_cons,
        ih2 h13 (by omega) (by omega) hl1 hl2 y' m']
      simp only [Prod.mk.injEq, monthIndex]
      omega
  | case2 y m ly lm hguard =>
    intro hm1 hm2 hl1 hl2 y' m'
    rw [genPeriods, if_neg hguard]
    simp only [List.not_mem_nil, false_iff, monthIndex]
    omega

theorem nodup_genPeriods (y m ly lm : Nat) :
    1 ≤ m → m ≤ 12 → 1 ≤ lm → lm ≤ 12 →
    (genPeriods y m ly lm).Nodup := by
  induction y, m, ly, lm using genPeriods.induct with
  | case1 y m ly lm hguard ih1 ih2 =>
    intro hm1 hm2 hl1 hl2
    rw [genPeriods, if_pos hguard]
    by_cases h13 : m + 1 > 12
    · rw [if_pos h13, List.nodup_cons]
      refine ⟨fun hmem => ?_, ih1 h13 (by omega) (by omega) hl1 hl2⟩
      rw [mem_genPeriods (y + 1) 1 ly lm (by omega) (by omega) hl1 hl2 y m]
        at hmem
      simp only [monthIndex] at hmem
      omega
    · rw [if_neg h13, List.nodup_cons]
      refine ⟨fun hmem => ?_, ih2 h13 (by omega) (by omega) hl1 hl2⟩
      rw [mem_genPeriods y (m + 1) ly lm (by omega) (by omega) hl1 hl2 y m]
        at hmem
      simp only [monthIndex] at hmem
      omega
  | case2 y m ly lm hguard =>
    intro hm1 hm2 hl1 hl2
    rw [genPeriods, if_neg hguard]
    exact List.nodup_nil

theorem generate_clean (u t s : Nat) (rent : Int) :
    ∀ (P : List (Nat × Nat)) (rows : List RentPayment) (n : Nat),
    P.Nodup →
    (∀ ym ∈ P, findRentPayment rows u t s ym.2 ym.1 = none) →
    ∃ newRows, generateMissingRentPayments u t s rent P rows n =
        (rows ++ newRows, n + newRows.length) ∧
      (newRows.map fun p => (p.year, p.month)) = P ∧
      ∀ p ∈ newRows, p.userId = u ∧ p.tenantId = t ∧ p.shopId = s ∧
        p.amount = rent ∧ p.paidAmount = 0 ∧ p.pendingAmount = rent ∧
        p.status = ("pending") := by
  intro P
  induction P with
  | nil =>
    intro rows n _ _
    exact ⟨[], by simp [generateMissingRentPayments], rfl, by simp⟩
  | cons ym rest ih =>
    obtain ⟨y, m⟩ := ym
    intro rows n hnod hclean
    rw [List.nodup_cons] at hnod
    have hfind : findRentPayment rows u t s m y = none :=
      hclean (y, m) (List.mem_cons_self _ _)
    have hnew : ∀ ym' ∈ rest,
        findRentPayment (rows ++ [{
          id := n, userId := u, tenantId := t, shopId := s, month := m,
          year := y, amount := rent, paidAmount := 0, pendingAmount := rent,
          status := ("pending"), paymentDate := none, notes := none }])
          u t s ym'.2 ym'.1 = none := by
      intro ym' hym'
      have hne : ym' ≠ (y, m) := fun h => hnod.1 (h ▸ hym')
      unfold findRentPayment
      rw [find?_append_single_neg]
      · exact hclean ym' (List.mem_cons_of_mem _ hym')
      · simp only [decide_eq_false_iff_not]
        rintro ⟨-, -, -, hm', hy'⟩
        exact hne (by rw [Prod.ext_iff]; exact ⟨hy'.symm, hm'.symm⟩)
    obtain ⟨newRows', hgen, hmap, hfields⟩ :=
      ih (rows ++ [_]) (n + 1) hnod.2 hnew
    refine ⟨(⟨n, u, t, s, m, y, rent, 0, rent, ("pending"), none, none⟩ :
        RentPayment) :: newRows', ?_, ?_, ?_⟩
    · rw [generateMissingRentPayments, hfind]
      simp only [Option.isSome_none, Bool.false_eq_true, if_false]
      rw [hgen, Prod.mk.injEq]
      refine ⟨by simp, by simp only [List.length_cons]; omega⟩
    · rw [List.map_cons, hmap]
    · intro p hp
      rcases List.mem_cons.mp hp with rfl | hp'
      · exact ⟨rfl, rfl, rfl, rfl, rfl, rfl, rfl⟩
      · exact hfields p hp'

/-- C2: for a shop with a tenant and an allocation date `A ≤ now`, the
accrual step of `createShop` creates exactly one `RentPayment` per calendar
(month, year) from `(A.month, A.year)` through the previous calendar month
relative to `now` (the characterising membership equivalence plus no-dup),
never one for the current month, and every created record carries
`amount = monthlyRent`, `paidAmount = 0`, `pendingAmount = monthlyRent`,
`status = "pending"`.  The first conjunct settles the day-1 special case:
`createShop`'s cutoff equals the sweep's unconditional
previous-calendar-month cutoff for every `now`, including the 1st. -/
theorem accrualGenerator_spec :
    (∀ now : Date, lastPeriodCreateShop now = lastPeriodSweep now) ∧
    (∀ (shop : Shop) (t : Nat) (alloc now : Date) (rows : List RentPayment)
        (n : Nat),
      shop.tenantId = some t → shop.allocated_at = some alloc →
      dateLE alloc now →
      1 ≤ alloc.month → alloc.month ≤ 12 →
      1 ≤ now.month → now.month ≤ 12 → 1 ≤ now.year →
      (∀ p ∈ rows, ¬(p.userId = shop.userId ∧ p.tenantId = t ∧
        p.shopId = shop.id)) →
      ∃ newRows, (createShopAccrual shop now rows n).1 = rows ++ newRows ∧
        (∀ y m, ((y, m) ∈ newRows.map fun p => (p.year, p.month)) ↔
          (1 ≤ m ∧ m ≤ 12 ∧
            monthIndex alloc.year alloc.month ≤ monthIndex y m ∧
            monthIndex y m + 1 ≤ monthIndex now.year now.month)) ∧
        (newRows.map fun p => (p.year, p.month)).Nodup ∧
        (∀ p ∈ newRows, p.userId = shop.userId ∧ p.tenantId = t ∧
          p.shopId = shop.id ∧ p.amount = shop.monthlyRent ∧
          p.paidAmount = 0 ∧ p.pendingAmount = shop.monthlyRent ∧
          p.status = ("pending")) ∧
        ((now.year, now.month) ∉ newRows.map fun p => (p.year, p.month))) := by
  refine ⟨lastPeriodCreateShop_eq_sweep, ?_⟩
  intro shop t alloc now rows n htid hall hle ha1 ha2 hn1 hn2 hny hclean
  obtain ⟨hidx, hl1, hl2⟩ := lastPeriodSweep_index now hn1 hn2 hny
  have hred : createShopAccrual shop now rows n =
      generateMissingRentPayments shop.userId t shop.id shop.monthlyRent
        (genPeriods alloc.year alloc.month (lastPeriodSweep now).2
          (lastPeriodSweep now).1) rows n := by
    simp only [createShopAccrual, htid, hall, lastPeriodCreateShop_eq_sweep]
    rw [if_pos hle]
  have hclean' : ∀ ym ∈ genPeriods alloc.year alloc.month
      (lastPeriodSweep now).2 (lastPeriodSweep now).1,
      findRentPayment rows shop.userId t shop.id ym.2 ym.1 = none := by
    intro ym _
    unfold findRentPayment
    rw [List.find?_eq_none]
    intro p hp
    simp only [decide_eq_true_eq]
    rintro ⟨h1, h2, h3, -, -⟩
    exact hclean p hp ⟨h1, h2, h3⟩
  obtain ⟨newRows, hgen, hmap, hfields⟩ :=
    generate_clean shop.userId t shop.id shop.monthlyRent _ rows n
      (nodup_genPeriods alloc.year alloc.month _ _ ha1 ha2 hl1 hl2) hclean'
  refine ⟨newRows, by rw [hred, hgen], ?_, ?_, hfields, ?_⟩
  · intro y m
    rw [hmap, mem_genPeriods alloc.year alloc.month _ _ ha1 ha2 hl1 hl2 y m]
    simp only [monthIndex] at hidx ⊢
    omega
  · rw [hmap]
    exact nodup_genPeriods alloc.year alloc.month _ _ ha1 ha2 hl1 hl2
  · intro hmem
    rw [hmap, mem_genPeriods alloc.year alloc.month _ _ ha1 ha2 hl1 hl2]
      at hmem
    simp only [monthIndex] at hmem hidx
    omega

/-- Witness for C2: Scenario A — shop allocated 2024-01-15, rent ₹10,000,
`now` = 2024-04-10.  The accrual step appends exactly the periods Jan–Mar
2024 (the current month April excluded), each pending for the full rent. -/
theorem accrualGenerator_spec_witness :
    ∃ newRows,
      (createShopAccrual
          ⟨3, 7, 1, 10000, 0, true, false, some 2, some ⟨2024, 1, 15⟩⟩
          ⟨2024, 4, 10⟩ [] 1).1 = [] ++ newRows ∧
      (∀ y m, ((y, m) ∈ newRows.map fun p => (p.year, p.month)) ↔
        (1 ≤ m ∧ m ≤ 12 ∧ monthIndex 2024 1 ≤ monthIndex y m ∧
          monthIndex y m + 1 ≤ monthIndex 2024 4)) ∧
      (newRows.map fun p => (p.year, p.month)).Nodup ∧
      (∀ p ∈ newRows, p.userId = 7 ∧ p.tenantId = 2 ∧ p.shopId = 3 ∧
        p.amount = 10000 ∧ p.paidAmount = 0 ∧ p.pendingAmount = 10000 ∧
        p.status = ("pending")) ∧
      ((2024, 4) ∉ newRows.map fun p => (p.year, p.month)) :=
  accrualGenerator_spec.2
    ⟨3, 7, 1, 10000, 0, true, false, some 2, some ⟨2024, 1, 15⟩⟩ 2
    ⟨2024, 1, 15⟩ ⟨2024, 4, 10⟩ [] 1 rfl rfl (by decide) (by decide)
    (by decide) (by decide) (by decide) (by decide) (by simp)

theorem gen_prefix (u t s : Nat) (rent : Int) :
    ∀ (P : List (Nat × Nat)) (rows : List RentPayment) (n : Nat),
    ∃ tail,
      (generateMissingRentPayments u t s rent P rows n).1 = rows ++ tail := by
  intro P
  induction P with
  | nil => intro rows n; exact ⟨[], by simp [generateMissingRentPayments]⟩
  | cons ym rest ih =>
    obtain ⟨y, m⟩ := ym
    intro rows n
    rw [generateMissingRentPayments]
    by_cases hf : (findRentPayment rows u t s m y).isSome
    · rw [if_pos hf]
      exact ih rows n
    · rw [if_neg hf]
      obtain ⟨tail, htail⟩ := ih (rows ++
        [⟨n, u, t, s, m, y, rent, 0, rent, ("pending"), none, none⟩]) (n + 1)
      exact ⟨⟨n, u, t, s, m, y, rent, 0, rent, ("pending"), none,
        none⟩ :: tail, by rw [htail]; simp⟩

theorem gen_mem_after (u t s : Nat) (rent : Int) :
    ∀ (P : List (Nat × Nat)) (rows : List RentPayment) (n : Nat)
      (ym : Nat × Nat), ym ∈ P →
    (findRentPayment (generateMissingRentPayments u t s rent P rows n).1
      u t s ym.2 ym.1).isSome := by
  intro P
  induction P with
  | nil => intro rows n ym h; cases h
  | cons hd rest ih =>
    obtain ⟨y, m⟩ := hd
    intro rows n ym hym
    rw [generateMissingRentPayments]
    by_cases hf : (findRentPayment rows u t s m y).isSome
    · rw [if_pos hf]
      rcases List.mem_cons.mp hym with rfl | hym'
      · obtain ⟨tail, htail⟩ := gen_prefix u t s rent rest rows n
        rw [htail]
        obtain ⟨r, hr⟩ := Option.isSome_iff_exists.mp hf
        unfold findRentPayment at hr ⊢
        rw [find?_append_left _ _ _ _ hr]
        rfl
      · exact ih rows n ym hym'
    · rw [if_neg hf]
      rcases List.mem_cons.mp hym with rfl | hym'
      · obtain ⟨tail, htail⟩ := gen_prefix u t s rent rest (rows ++
          [⟨n, u, t, s, m, y, rent, 0, rent, ("pending"), none, none⟩])
          (n + 1)
        rw [htail]
        have hnone : findRentPayment rows u t s m y = none :=
          Option.not_isSome_iff_eq_none.mp hf
        have hrec : findRentPayment (rows ++
            [⟨n, u, t, s, m, y, rent, 0, rent, ("pending"), none, none⟩])
            u t s m y = some
              ⟨n, u, t, s, m, y, rent, 0, rent, ("pending"), none, none⟩ := by
          unfold findRentPayment at hnone ⊢
          rw [List.find?_append, hnone]
          simp
        unfold findRentPayment at hrec ⊢
        rw [find?_append_left _ _ _ _ hrec]
        rfl
      · exact ih _ (n + 1) ym hym'

theorem gen_noop (u t s : Nat) (rent : Int) :
    ∀ (P : List (Nat × Nat)) (rows : List RentPayment) (n : Nat),
    (∀ ym ∈ P, (findRentPayment rows u t s ym.2 ym.1).isSome) →
    generateMissingRentPayments u t s rent P rows n = (rows, n) := by
  intro P
  induction P with
  | nil => intro rows n _; rfl
  | cons hd rest ih =>
    obtain ⟨y, m⟩ := hd
    intro rows n h
    rw [generateMissingRentPayments,
      if_pos (h (y, m) (List.mem_cons_self _ _))]
    exact ih rows n fun ym hym => h ym (List.mem_cons_of_mem _ hym)

/-- C4: the rent accrual generator is idempotent.  For every shop and fixed
`now`, running the sweep again immediately after a previous run — whether
that run was the sweep itself or `createShop`'s accrual step, and even with
the shop's `monthlyRent` changed in between — returns the store unchanged:
no row is added for any (tenant, shop, month, year) and no previously
created record (its `amount` included) is altered. -/
theorem accrualGenerator_idempotent (shop : Shop) (rentNew : Int)
    (now : Date) (rows : List RentPayment) (n : Nat) :
    sweepShopAccrual { shop with monthlyRent := rentNew } now
        (sweepShopAccrual shop now rows n).1
        (sweepShopAccrual shop now rows n).2 =
      sweepShopAccrual shop now rows n ∧
    sweepShopAccrual { shop with monthlyRent := rentNew } now
        (createShopAccrual shop now rows n).1
        (createShopAccrual shop now rows n).2 =
      createShopAccrual shop now rows n := by
  obtain ⟨sid, suid, sbid, srent, sadv, socc, sadp, stid, sall⟩ := shop
  cases stid with
  | none => exact ⟨rfl, rfl⟩
  | some t =>
    cases sall with
    | none => exact ⟨rfl, rfl⟩
    | some alloc =>
      by_cases hle : dateLE alloc now
      · have hred : ∀ (r : Int) (rs : List RentPayment) (k : Nat),
            sweepShopAccrual
              ⟨sid, suid, sbid, r, sadv, socc, sadp, some t, some alloc⟩
              now rs k =
            generateMissingRentPayments suid t sid r
              (genPeriods alloc.year alloc.month (lastPeriodSweep now).2
                (lastPeriodSweep now).1) rs k := by
          intro r rs k
          simp only [sweepShopAccrual]
          rw [if_pos hle]
        have hredc :
            createShopAccrual
              ⟨sid, suid, sbid, srent, sadv, socc, sadp, some t, some alloc⟩
              now rows n =
            generateMissingRentPayments suid t sid srent
              (genPeriods alloc.year alloc.month (lastPeriodSweep now).2
                (lastPeriodSweep now).1) rows n := by
          simp only [createShopAccrual, lastPeriodCreateShop_eq_sweep]
          rw [if_pos hle]
        constructor
        · rw [hred srent rows n, hred rentNew]
          rw [gen_noop suid t sid rentNew _ _ _
            fun ym hym => gen_mem_after suid t sid srent _ rows n ym hym]
        · rw [hredc, hred rentNew]
          rw [gen_noop suid t sid rentNew _ _ _
            fun ym hym => gen_mem_after suid t sid srent _ rows n ym hym]
      · have hsk : ∀ (r : Int) (rs : List RentPayment) (k : Nat),
            sweepShopAccrual
              ⟨sid, suid, sbid, r, sadv, socc, sadp, some t, some alloc⟩
              now rs k = (rs, k) := by
          intro r rs k
          simp only [sweepShopAccrual]
          rw [if_neg hle]
        have hskc :
            createShopAccrual
              ⟨sid, suid, sbid, srent, sadv, socc, sadp, some t, some alloc⟩
              now rows n = (rows, n) := by
          simp only [createShopAccrual]
          rw [if_neg hle]
        rw [hsk, hskc, hsk, hsk]
        exact ⟨rfl, rfl⟩

/-! ## C9: backup import and the rollback path -/

theorem importBackupData_getFullBackup (d₀ : AppData) (hwf : WfAppData d₀)
    (hN : (d₀.rentPayments.map rentKey).Nodup)
    (hinv : ∀ p ∈ d₀.rentPayments, rentInvariant p) (dAny : AppData) :
    importBackupData (deleteAllUserData dAny) (getFullBackup d₀) =
      ({ d₀ with tenantShops := [] }, none) := by
  obtain ⟨h1, h2, h3, h4, h5, h6, h7, h8⟩ := hwf
  simp only [importBackupData, getFullBackup, deleteAllUserData, importStep,
    List.nil_append, h1, h2, h3, h4, h5, h6, h7, h8, if_true,
    recalculateAll_id d₀.rentPayments hN hinv]

theorem importRollback_restores (dFail d₀ : AppData) (e : ImportError)
    (hwf : WfAppData d₀) (hN : (d₀.rentPayments.map rentKey).Nodup)
    (hinv : ∀ p ∈ d₀.rentPayments, rentInvariant p) :
    importRollback dFail (getFullBackup d₀) e =
      ({ message := "Import failed, previous data has been restored",
         error := some e, restoreError := none },
       { d₀ with tenantShops := [] }) := by
  rw [importRollback, importBackupData_getFullBackup d₀ hwf hN hinv dFail]

/-- C9 (amended): the import route stashes the user's export before the
wipe, and on any failure — of validation or of the insertion pass — wipes
again and re-imports the stash; afterwards the user's rows in the eight
exported tables are present exactly as before (the rent rows because the
retained recalculation pass is the identity on a unique-keyed,
invariant-satisfying ledger), but the `tenant_shops` link rows deleted by the
wipe are NOT restored, because the export omits them; and when the
compensating re-import itself fails, the response reports the original error
in `error` and the rollback error separately in `restoreError`, neither
merged nor discarded. -/
theorem importBackupRoute_rollback_spec :
    (∀ (d : AppData) (doc : BackupDoc) (e : ImportError),
      WfAppData d → (d.rentPayments.map rentKey).Nodup →
      (∀ p ∈ d.rentPayments, rentInvariant p) →
      validateBackupData doc = some e ∨
        (validateBackupData doc = none ∧
          (importBackupData (deleteAllUserData d) doc).2 = some e) →
      importBackupRoute d doc =
        ({ message := "Import failed, previous data has been restored",
           error := some e, restoreError := none },
         { d with tenantShops := [] })) ∧
    (∀ (d : AppData) (doc : BackupDoc) (e e' : ImportError),
      validateBackupData doc = some e →
      (importBackupData (deleteAllUserData d) (getFullBackup d)).2 =
        some e' →
      (importBackupRoute d doc).1 =
        { message :=
            "Import failed and data restoration failed. Please contact support.",
          error := some e, restoreError := some e' }) := by
  constructor
  · intro d doc e hwf hN hinv hfail
    rcases hfail with hval | ⟨hval, hins⟩
    · rw [importBackupRoute, hval]
      exact importRollback_restores d d e hwf hN hinv
    · have hr : importBackupData (deleteAllUserData d) doc =
          ((importBackupData (deleteAllUserData d) doc).1, some e) :=
        Prod.ext_iff.mpr ⟨rfl, hins⟩
      rw [importBackupRoute, hval, hr]
      exact importRollback_restores _ d e hwf hN hinv
  · intro d doc e e' hval hins
    have hr : importBackupData (deleteAllUserData d) (getFullBackup d) =
        ((importBackupData (deleteAllUserData d) (getFullBackup d)).1,
          some e') :=
      Prod.ext_iff.mpr ⟨rfl, hins⟩
    rw [importBackupRoute, hval]
    simp only [importRollback]
    rw [hr]

/-- Counterexample to C9 as stated: a failing import (here: a backup missing
the `accounts` array) triggers the rollback, the response reports the error
— yet the user's `tenant_shops` link row is gone afterwards, because
`deleteAllUserData` wipes `tenant_shops` and the export that is re-imported
does not contain them.  The original data is NOT fully present. -/
theorem importBackupRoute_rollback_cex :
    (importBackupRoute
        ⟨[⟨1, 7, 500⟩], [⟨1⟩], [], [], [⟨4⟩], [], [], [],
          [⟨1, 4, 9⟩]⟩
        ⟨none, none, none, none, none, none, none, none⟩).1.error =
      some (.invalidBackupArray ("accounts")) ∧
    (importBackupRoute
        ⟨[⟨1, 7, 500⟩], [⟨1⟩], [], [], [⟨4⟩], [], [], [],
          [⟨1, 4, 9⟩]⟩
        ⟨none, none, none, none, none, none, none, none⟩).2.tenantShops
      = [] ∧
    (⟨[⟨1, 7, 500⟩], [⟨1⟩], [], [], [⟨4⟩], [], [], [],
      [⟨1, 4, 9⟩]⟩ : AppData).tenantShops ≠ [] := by
  refine ⟨rfl, rfl, by decide⟩

/-- Witness for C9: the rollback path on a concrete store with one account,
one category, one tenant and one tenant-shop link, against a backup document
missing every array. -/
theorem importBackupRoute_rollback_witness :
    importBackupRoute
        ⟨[⟨1, 7, 500⟩], [⟨1⟩], [], [], [⟨4⟩], [], [], [], [⟨1, 4, 9⟩]⟩
        ⟨none, none, none, none, none, none, none, none⟩ =
      ({ message := "Import failed, previous data has been restored",
         error := some (.invalidBackupArray ("accounts")),
         restoreError := none },
       { (⟨[⟨1, 7, 500⟩], [⟨1⟩], [], [], [⟨4⟩], [], [], [],
           [⟨1, 4, 9⟩]⟩ : AppData) with tenantShops := [] }) :=
  importBackupRoute_rollback_spec.1
    ⟨[⟨1, 7, 500⟩], [⟨1⟩], [], [], [⟨4⟩], [], [], [], [⟨1, 4, 9⟩]⟩
    ⟨none, none, none, none, none, none, none, none⟩
    (.invalidBackupArray ("accounts"))
    (by refine ⟨?_, ?_, ?_, ?_, ?_, ?_, ?_, ?_⟩ <;> decide)
    (by decide) (by decide) (Or.inl rfl)

/-! ## C7: lemmas for the transfer round trip -/

theorem balOf_set_self (l : List Account) (i : Nat) (v : Int) (a : Account)
    (h : l.find? (fun x => x.id = i) = some a) :
    balOf (setBalance l i v) i = some v :=
  lookup_set_self l i v a h

theorem balOf_set_ne (l : List Account) (i j : Nat) (v : Int) (h : j ≠ i) :
    balOf (setBalance l i v) j = balOf l j :=
  lookup_set_ne l i j v h

theorem balOf_eq_some (l : List Account) (c : Nat) (w : Int)
    (h : balOf l c = some w) :
    ∃ acct, l.find? (fun x => x.id = c) = some acct ∧ acct.balance = w := by
  unfold balOf at h
  cases hf : l.find? (fun x => x.id = c) with
  | none => rw [hf] at h; cases h
  | some acct =>
    rw [hf] at h
    exact ⟨acct, rfl, by injection h⟩

theorem find?_filter_id_none {α : Type} (idOf : α → Nat) (l : List α)
    (i : Nat) :
    ((l.filter fun t => ¬idOf t = i).find? fun t => idOf t = i) = none := by
  rw [List.find?_eq_none]
  intro x hx
  simp only [List.mem_filter, decide_not, Bool.not_eq_true',
    decide_eq_false_iff_not] at hx
  simpa using hx.2

theorem find?_filter_id_ne {α : Type} (idOf : α → Nat) (l : List α)
    (i j : Nat) (h : j ≠ i) :
    ((l.filter fun t => ¬idOf t = i).find? fun t => idOf t = j) =
      l.find? fun t => idOf t = j := by
  refine find?_filter_of_imp _ _ l fun x hx => ?_
  simp only [decide_eq_true_eq] at hx
  simpa using hx ▸ h

theorem balOf_set_self' (l : List Account) (i : Nat) (v : Int) :
    balOf (setBalance l i v) i = (balOf l i).map fun _ => v := by
  unfold balOf
  rw [find?_setBalance_self]
  cases l.find? fun a => a.id = i <;> rfl

theorem sim_step_createTx (s₀ : St) (a b : Nat) (X balA balB : Int)
    (row : Transfer) (s₁ s₂ : St) (tx : InsertTxn) (s₁' : St)
    (hR : TransferSim s₀ a b X balA balB row s₁ s₂)
    (hav1 : tx.accountId ≠ a) (hav2 : tx.accountId ≠ b)
    (hok : applyOp s₁ (.createTx tx) = .ok s₁') :
    ∃ s₂', applyOp s₂ (.createTx tx) = .ok s₂' ∧
      TransferSim s₀ a b X balA balB row s₁' s₂' := by
  simp only [applyOp] at hok
  cases hfa : findAccount s₁ tx.accountId with
  | none =>
    simp only [createTransaction, hfa, Except.map] at hok
    exact Except.noConfusion hok
  | some a₁ =>
    have hbal₁ : lookupBalance s₁ tx.accountId = some a₁.balance := by
      show (findAccount s₁ tx.accountId).map _ = _
      rw [hfa]; rfl
    have hbal₂ : balOf s₂.accounts tx.accountId = some a₁.balance := by
      have h' := hR.balOther tx.accountId hav1 hav2
      show lookupBalance s₂ tx.accountId = some a₁.balance
      rw [← h']; exact hbal₁
    obtain ⟨a₂, hfa₂, hbal₂eq⟩ :=
      balOf_eq_some s₂.accounts tx.accountId a₁.balance hbal₂
    have hfa₂' : findAccount s₂ tx.accountId = some a₂ := hfa₂
    have hkey : ∀ (w : Int),
        TransferSim s₀ a b X balA balB row
          { s₁ with
              accounts := setBalance s₁.accounts tx.accountId w
              txns := s₁.txns ++
                [⟨s₁.nextTxnId, tx.userId, some tx.accountId, tx.ttype,
                  tx.amount⟩]
              nextTxnId := s₁.nextTxnId + 1 }
          { s₂ with
              accounts := setBalance s₂.accounts tx.accountId w
              txns := s₂.txns ++
                [⟨s₂.nextTxnId, tx.userId, some tx.accountId, tx.ttype,
                  tx.amount⟩]
              nextTxnId := s₂.nextTxnId + 1 } := by
      intro w
      refine ⟨?_, ?_, ?_, ?_, ?_, ?_, ?_, ?_, hR.nextTrEq, hR.rowLe,
        hR.bound₁, hR.bound₂, hR.findLow, hR.findRow, hR.old₁, hR.old₂, ?_⟩
      · intro c hca hcb
        show balOf (setBalance s₁.accounts tx.accountId w) c =
          balOf (setBalance s₂.accounts tx.accountId w) c
        by_cases hc : c = tx.accountId
        · rw [hc, balOf_set_self', balOf_set_self']
          have h' := hR.balOther c hca hcb
          rw [show balOf s₁.accounts tx.accountId =
            balOf s₂.accounts tx.accountId from hc ▸ h']
        · rw [balOf_set_ne _ _ _ _ hc, balOf_set_ne _ _ _ _ hc]
          exact hR.balOther c hca hcb
      · show balOf (setBalance s₂.accounts tx.accountId w) a = some balA
        rw [balOf_set_ne _ _ _ _ (Ne.symm hav1)]
        exact hR.balA₂
      · show balOf (setBalance s₁.accounts tx.accountId w) a =
          some (balA - X)
        rw [balOf_set_ne _ _ _ _ (Ne.symm hav1)]
        exact hR.balA₁
      · show balOf (setBalance s₂.accounts tx.accountId w) b = some balB
        rw [balOf_set_ne _ _ _ _ (Ne.symm hav2)]
        exact hR.balB₂
      · show balOf (setBalance s₁.accounts tx.accountId w) b =
          some (balB + X)
        rw [balOf_set_ne _ _ _ _ (Ne.symm hav2)]
        exact hR.balB₁
      · show s₁.txns ++ _ = s₂.txns ++ _
        rw [hR.txnsEq, hR.nextTxnEq]
      · show s₁.nextTxnId + 1 = s₂.nextTxnId + 1
        rw [hR.nextTxnEq]
      · exact le_trans hR.nextTxnGe (Nat.le_succ _)
      · intro t ht htlt
        rcases List.mem_append.mp ht with ht' | ht'
        · exact hR.oldTxn t ht' htlt
        · rw [List.mem_singleton.mp ht'] at htlt
          exact absurd htlt (not_lt.mpr hR.nextTxnGe)
    by_cases h1 : tx.ttype = ("income")
    · have hc : createTransaction s₁ tx = .ok
          ({ s₁ with
              accounts :=
                setBalance s₁.accounts tx.accountId (a₁.balance + tx.amount)
              txns := s₁.txns ++
                [⟨s₁.nextTxnId, tx.userId, some tx.accountId, tx.ttype,
                  tx.amount⟩]
              nextTxnId := s₁.nextTxnId + 1 },
            ⟨s₁.nextTxnId, tx.userId, some tx.accountId, tx.ttype,
              tx.amount⟩) := by
        simp only [createTransaction, hfa]
        rw [if_pos h1]
      rw [hc] at hok
      simp only [Except.map] at hok
      have hc₂ : createTransaction s₂ tx = .ok
          ({ s₂ with
              accounts :=
                setBalance s₂.accounts tx.accountId (a₁.balance + tx.amount)
              txns := s₂.txns ++
                [⟨s₂.nextTxnId, tx.userId, some tx.accountId, tx.ttype,
                  tx.amount⟩]
              nextTxnId := s₂.nextTxnId + 1 },
            ⟨s₂.nextTxnId, tx.userId, some tx.accountId, tx.ttype,
              tx.amount⟩) := by
        simp only [createTransaction, hfa₂']
        rw [if_pos h1, hbal₂eq]
      refine ⟨{ s₂ with
          accounts :=
            setBalance s₂.accounts tx.accountId (a₁.balance + tx.amount)
          txns := s₂.txns ++
            [⟨s₂.nextTxnId, tx.userId, some tx.accountId, tx.ttype,
              tx.amount⟩]
          nextTxnId := s₂.nextTxnId + 1 }, ?_, ?_⟩
      · simp only [applyOp]
        rw [hc₂]
        rfl
      · have hk := hkey (a₁.balance + tx.amount)
        exact (Except.ok.inj hok) ▸ hk
    · by_cases h2 : tx.ttype = ("expense")
      · have hc : createTransaction s₁ tx = .ok
            ({ s₁ with
                accounts :=
                  setBalance s₁.accounts tx.accountId
                    (a₁.balance - tx.amount)
                txns := s₁.txns ++
                  [⟨s₁.nextTxnId, tx.userId, some tx.accountId, tx.ttype,
                    tx.amount⟩]
                nextTxnId := s₁.nextTxnId + 1 },
              ⟨s₁.nextTxnId, tx.userId, some tx.accountId, tx.ttype,
                tx.amount⟩) := by
          simp only [createTransaction, hfa]
          rw [if_neg h1, if_pos h2]
        rw [hc] at hok
        simp only [Except.map] at hok
        have hc₂ : createTransaction s₂ tx = .ok
            ({ s₂ with
                accounts :=
                  setBalance s₂.accounts tx.accountId
                    (a₁.balance - tx.amount)
                txns := s₂.txns ++
                  [⟨s₂.nextTxnId, tx.userId, some tx.accountId, tx.ttype,
                    tx.amount⟩]
                nextTxnId := s₂.nextTxnId + 1 },
              ⟨s₂.nextTxnId, tx.userId, some tx.accountId, tx.ttype,
                tx.amount⟩) := by
          simp only [createTransaction, hfa₂']
          rw [if_neg h1, if_pos h2, hbal₂eq]
        refine ⟨{ s₂ with
            accounts :=
              setBalance s₂.accounts tx.accountId (a₁.balance - tx.amount)
            txns := s₂.txns ++
              [⟨s₂.nextTxnId, tx.userId, some tx.accountId, tx.ttype,
                tx.amount⟩]
            nextTxnId := s₂.nextTxnId + 1 }, ?_, ?_⟩
        · simp only [applyOp]
          rw [hc₂]
          rfl
        · have hk := hkey (a₁.balance - tx.amount)
          exact (Except.ok.inj hok) ▸ hk
      · have hc : createTransaction s₁ tx =
            .error .invalidTransactionType := by
          simp only [createTransaction, hfa]
          rw [if_neg h1, if_neg h2]
        rw [hc] at hok
        cases hok

theorem sim_step_deleteTx (s₀ : St) (a b : Nat) (X balA balB : Int)
    (row : Transfer) (s₁ s₂ : St) (id : Nat) (s₁' : St)
    (hR : TransferSim s₀ a b X balA balB row s₁ s₂)
    (hav : id < s₀.nextTxnId ∧ ∀ t ∈ s₀.txns, t.id = id →
      t.accountId ≠ some a ∧ t.accountId ≠ some b)
    (hok : applyOp s₁ (.deleteTx id) = .ok s₁') :
    ∃ s₂', applyOp s₂ (.deleteTx id) = .ok s₂' ∧
      TransferSim s₀ a b X balA balB row s₁' s₂' := by
  simp only [applyOp] at hok
  cases hft : s₁.txns.find? (fun t => t.id = id) with
  | none =>
    simp only [deleteTransaction, hft] at hok
    exact Except.noConfusion hok
  | some txn =>
    cases hacc : txn.accountId with
    | none =>
      simp only [deleteTransaction, hft, hacc] at hok
      exact Except.noConfusion hok
    | some accId =>
      cases hfacc : findAccount s₁ accId with
      | none =>
        simp only [deleteTransaction, hft, hacc, hfacc] at hok
        exact Except.noConfusion hok
      | some acct₁ =>
        have htxnmem : txn ∈ s₁.txns := List.mem_of_find?_eq_some hft
        have htxnid : txn.id = id := by
          have h' := List.find?_some hft
          simpa using h'
        have htxnold : txn ∈ s₀.txns :=
          hR.oldTxn txn htxnmem (htxnid ▸ hav.1)
        have havoid := hav.2 txn htxnold htxnid
        have haccA : accId ≠ a := fun h => havoid.1 (by rw [hacc, h])
        have haccB : accId ≠ b := fun h => havoid.2 (by rw [hacc, h])
        have hbal₁ : lookupBalance s₁ accId = some acct₁.balance := by
          show (findAccount s₁ accId).map _ = _
          rw [hfacc]; rfl
        have hbal₂ : balOf s₂.accounts accId = some acct₁.balance := by
          have h' := hR.balOther accId haccA haccB
          show lookupBalance s₂ accId = some acct₁.balance
          rw [← h']; exact hbal₁
        obtain ⟨acct₂, hfacc₂, hbeq⟩ :=
          balOf_eq_some s₂.accounts accId acct₁.balance hbal₂
        have hfacc₂' : findAccount s₂ accId = some acct₂ := hfacc₂
        have hft₂ : s₂.txns.find? (fun t => t.id = id) = some txn := by
          rw [← hR.txnsEq]; exact hft
        have hkey : ∀ (w : Int),
            TransferSim s₀ a b X balA balB row
              { s₁ with
                  accounts := setBalance s₁.accounts accId w
                  txns := s₁.txns.filter fun t => ¬t.id = id }
              { s₂ with
                  accounts := setBalance s₂.accounts accId w
                  txns := s₂.txns.filter fun t => ¬t.id = id } := by
          intro w
          refine ⟨?_, ?_, ?_, ?_, ?_, ?_, hR.nextTxnEq, hR.nextTxnGe,
            hR.nextTrEq, hR.rowLe, hR.bound₁, hR.bound₂, hR.findLow,
            hR.findRow, hR.old₁, hR.old₂, ?_⟩
          · intro c hca hcb
            show balOf (setBalance s₁.accounts accId w) c =
              balOf (setBalance s₂.accounts accId w) c
            by_cases hc : c = accId
            · rw [hc, balOf_set_self', balOf_set_self']
              have h' := hR.balOther c hca hcb
              rw [show balOf s₁.accounts accId =
                balOf s₂.accounts accId from hc ▸ h']
            · rw [balOf_set_ne _ _ _ _ hc, balOf_set_ne _ _ _ _ hc]
              exact hR.balOther c hca hcb
          · show balOf (setBalance s₂.accounts accId w) a = some balA
            rw [balOf_set_ne _ _ _ _ (Ne.symm haccA)]
            exact hR.balA₂
          · show balOf (setBalance s₁.accounts accId w) a = some (balA - X)
            rw [balOf_set_ne _ _ _ _ (Ne.symm haccA)]
            exact hR.balA₁
          · show balOf (setBalance s₂.accounts accId w) b = some balB
            rw [balOf_set_ne _ _ _ _ (Ne.symm haccB)]
            exact hR.balB₂
          · show balOf (setBalance s₁.accounts accId w) b = some (balB + X)
            rw [balOf_set_ne _ _ _ _ (Ne.symm haccB)]
            exact hR.balB₁
          · show List.filter _ s₁.txns = List.filter _ s₂.txns
            rw [hR.txnsEq]
          · intro t ht htlt
            exact hR.oldTxn t (List.mem_of_mem_filter ht) htlt
        have hc : deleteTransaction s₁ id = .ok
            { s₁ with
                accounts := setBalance s₁.accounts accId
                  (if txn.ttype = ("income") then acct₁.balance - txn.amount
                   else if txn.ttype = ("expense") then
                     acct₁.balance + txn.amount
                   else acct₁.balance)
                txns := s₁.txns.filter fun t => ¬t.id = id } := by
          simp only [deleteTransaction, hft, hacc, hfacc]
        have hc₂ : deleteTransaction s₂ id = .ok
            { s₂ with
                accounts := setBalance s₂.accounts accId
                  (if txn.ttype = ("income") then acct₁.balance - txn.amount
                   else if txn.ttype = ("expense") then
                     acct₁.balance + txn.amount
                   else acct₁.balance)
                txns := s₂.txns.filter fun t => ¬t.id = id } := by
          simp only [deleteTransaction, hft₂, hacc, hfacc₂']
          rw [hbeq]
        rw [hc] at hok
        refine ⟨{ s₂ with
            accounts := setBalance s₂.accounts accId
              (if txn.ttype = ("income") then acct₁.balance - txn.amount
               else if txn.ttype = ("expense") then
                 acct₁.balance + txn.amount
               else acct₁.balance)
            txns := s₂.txns.filter fun t => ¬t.id = id }, hc₂, ?_⟩
        exact (Except.ok.inj hok) ▸
          hkey (if txn.ttype = ("income") then acct₁.balance - txn.amount
            else if txn.ttype = ("expense") then acct₁.balance + txn.amount
            else acct₁.balance)

theorem balOf_set_congr (l₁ l₂ : List Account) (a b i : Nat) (v : Int)
    (hia : i ≠ a) (hib : i ≠ b)
    (h : ∀ c, c ≠ a → c ≠ b → balOf l₁ c = balOf l₂ c) :
    ∀ c, c ≠ a → c ≠ b →
      balOf (setBalance l₁ i v) c = balOf (setBalance l₂ i v) c := by
  intro c hca hcb
  by_cases hc : c = i
  · rw [hc, balOf_set_self', balOf_set_self', h i hia hib]
  · rw [balOf_set_ne _ _ _ _ hc, balOf_set_ne _ _ _ _ hc]
    exact h c hca hcb

theorem sim_step_createTr (s₀ : St) (a b : Nat) (X balA balB : Int)
    (row : Transfer) (s₁ s₂ : St) (tr : InsertTransfer) (s₁' : St)
    (hR : TransferSim s₀ a b X balA balB row s₁ s₂)
    (hf1 : tr.fromAccountId ≠ a) (hf2 : tr.fromAccountId ≠ b)
    (ht1 : tr.toAccountId ≠ a) (ht2 : tr.toAccountId ≠ b)
    (hok : applyOp s₁ (.createTr tr) = .ok s₁') :
    ∃ s₂', applyOp s₂ (.createTr tr) = .ok s₂' ∧
      TransferSim s₀ a b X balA balB row s₁' s₂' := by
  simp only [applyOp] at hok
  cases hff : findAccount s₁ tr.fromAccountId with
  | none =>
    simp only [createTransfer, hff, Except.map] at hok
    exact Except.noConfusion hok
  | some fa₁ =>
    cases hft : findAccount s₁ tr.toAccountId with
    | none =>
      simp only [createTransfer, hff, hft, Except.map] at hok
      exact Except.noConfusion hok
    | some ta₁ =>
      by_cases hlt : fa₁.balance < tr.amount
      · simp only [createTransfer, hff, hft] at hok
        rw [if_pos hlt] at hok
        exact Except.noConfusion hok
      · have hc : createTransfer s₁ tr = .ok
            ({ s₁ with
                accounts :=
                  setBalance
                    (setBalance s₁.accounts tr.fromAccountId
                      (fa₁.balance - tr.amount))
                    tr.toAccountId (ta₁.balance + tr.amount)
                transfers := s₁.transfers ++
                  [⟨s₁.nextTransferId, tr.userId, tr.fromAccountId,
                    tr.toAccountId, tr.amount⟩]
                nextTransferId := s₁.nextTransferId + 1 },
              ⟨s₁.nextTransferId, tr.userId, tr.fromAccountId,
                tr.toAccountId, tr.amount⟩) := by
          simp only [createTransfer, hff, hft]
          rw [if_neg hlt]
        rw [hc] at hok
        simp only [Except.map] at hok
        have hbf₂ : balOf s₂.accounts tr.fromAccountId =
            some fa₁.balance := by
          have h' := hR.balOther tr.fromAccountId hf1 hf2
          show lookupBalance s₂ tr.fromAccountId = some fa₁.balance
          rw [← h']
          show (findAccount s₁ tr.fromAccountId).map _ = _
          rw [hff]; rfl
        have hbt₂ : balOf s₂.accounts tr.toAccountId =
            some ta₁.balance := by
          have h' := hR.balOther tr.toAccountId ht1 ht2
          show lookupBalance s₂ tr.toAccountId = some ta₁.balance
          rw [← h']
          show (findAccount s₁ tr.toAccountId).map _ = _
          rw [hft]; rfl
        obtain ⟨fa₂, hff₂, hbeqf⟩ :=
          balOf_eq_some s₂.accounts tr.fromAccountId fa₁.balance hbf₂
        obtain ⟨ta₂, hft₂, hbeqt⟩ :=
          balOf_eq_some s₂.accounts tr.toAccountId ta₁.balance hbt₂
        have hff₂' : findAccount s₂ tr.fromAccountId = some fa₂ := hff₂
        have hft₂' : findAccount s₂ tr.toAccountId = some ta₂ := hft₂
        have hlt₂ : ¬fa₂.balance < tr.amount := by rw [hbeqf]; exact hlt
        have hc₂ : createTransfer s₂ tr = .ok
            ({ s₂ with
                accounts :=
                  setBalance
                    (setBalance s₂.accounts tr.fromAccountId
                      (fa₁.balance - tr.amount))
                    tr.toAccountId (ta₁.balance + tr.amount)
                transfers := s₂.transfers ++
                  [⟨s₂.nextTransferId, tr.userId, tr.fromAccountId,
                    tr.toAccountId, tr.amount⟩]
                nextTransferId := s₂.nextTransferId + 1 },
              ⟨s₂.nextTransferId, tr.userId, tr.fromAccountId,
                tr.toAccountId, tr.amount⟩) := by
          simp only [createTransfer, hff₂', hft₂']
          rw [if_neg hlt₂, hbeqf, hbeqt]
        refine ⟨{ s₂ with
            accounts :=
              setBalance
                (setBalance s₂.accounts tr.fromAccountId
                  (fa₁.balance - tr.amount))
                tr.toAccountId (ta₁.balance + tr.amount)
            transfers := s₂.transfers ++
              [⟨s₂.nextTransferId, tr.userId, tr.fromAccountId,
                tr.toAccountId, tr.amount⟩]
            nextTransferId := s₂.nextTransferId + 1 }, ?_, ?_⟩
        · simp only [applyOp]
          rw [hc₂]
          rfl
        · refine (Except.ok.inj hok) ▸
            ⟨?_, ?_, ?_, ?_, ?_, hR.txnsEq, hR.nextTxnEq, hR.nextTxnGe,
              ?_, ?_, ?_, ?_, ?_, ?_, ?_, ?_, hR.oldTxn⟩
          · exact balOf_set_congr _ _ a b tr.toAccountId _ ht1 ht2
              (balOf_set_congr _ _ a b tr.fromAccountId _ hf1 hf2
                hR.balOther)
          · show balOf (setBalance (setBalance s₂.accounts _ _) _ _) a = _
            rw [balOf_set_ne _ _ _ _ (Ne.symm ht1),
              balOf_set_ne _ _ _ _ (Ne.symm hf1)]
            exact hR.balA₂
          · show balOf (setBalance (setBalance s₁.accounts _ _) _ _) a = _
            rw [balOf_set_ne _ _ _ _ (Ne.symm ht1),
              balOf_set_ne _ _ _ _ (Ne.symm hf1)]
            exact hR.balA₁
          · show balOf (setBalance (setBalance s₂.accounts _ _) _ _) b = _
            rw [balOf_set_ne _ _ _ _ (Ne.symm ht2),
              balOf_set_ne _ _ _ _ (Ne.symm hf2)]
            exact hR.balB₂
          · show balOf (setBalance (setBalance s₁.accounts _ _) _ _) b = _
            rw [balOf_set_ne _ _ _ _ (Ne.symm ht2),
              balOf_set_ne _ _ _ _ (Ne.symm hf2)]
            exact hR.balB₁
          · show s₁.nextTransferId + 1 = s₂.nextTransferId + 1 + 1
            rw [hR.nextTrEq]
          · exact le_trans hR.rowLe (Nat.le_succ _)
          · intro t' ht'
            rcases List.mem_append.mp ht' with h' | h'
            · exact lt_trans (hR.bound₁ t' h') (Nat.lt_succ_self _)
            · rw [List.mem_singleton.mp h']
              exact Nat.lt_succ_self _
          · intro t' ht'
            rcases List.mem_append.mp ht' with h' | h'
            · exact lt_trans (hR.bound₂ t' h') (Nat.lt_succ_self _)
            · rw [List.mem_singleton.mp h']
              exact Nat.lt_succ_self _
          · intro id' hid'
            have hrow := hR.rowLe
            have hnext := hR.nextTrEq
            rw [find?_append_single_neg _ _ _
                (by simp only [decide_eq_false_iff_not]; omega),
              find?_append_single_neg _ _ _
                (by simp only [decide_eq_false_iff_not]; omega)]
            exact hR.findLow id' hid'
          · exact find?_append_left _ _ _ _ hR.findRow
          · intro t' ht' htlt
            rcases List.mem_append.mp ht' with h' | h'
            · exact hR.old₁ t' h' htlt
            · rw [List.mem_singleton.mp h'] at htlt
              have hrow := hR.rowLe
              have hnext := hR.nextTrEq
              exact absurd htlt (by show ¬s₁.nextTransferId < row.id; omega)
          · intro t' ht' htlt
            rcases List.mem_append.mp ht' with h' | h'
            · exact hR.old₂ t' h' htlt
            · rw [List.mem_singleton.mp h'] at htlt
              have hrow := hR.rowLe
              exact absurd htlt (by show ¬s₂.nextTransferId < row.id; omega)

theorem sim_step_deleteTr (s₀ : St) (a b : Nat) (X balA balB : Int)
    (row : Transfer) (s₁ s₂ : St) (id uid : Nat) (s₁' : St)
    (hR : TransferSim s₀ a b X balA balB row s₁ s₂)
    (hrowid : row.id = s₀.nextTransferId)
    (havlt : id < s₀.nextTransferId)
    (hav : ∀ t ∈ s₀.transfers, t.id = id →
      t.fromAccountId ≠ a ∧ t.fromAccountId ≠ b ∧
      t.toAccountId ≠ a ∧ t.toAccountId ≠ b)
    (hok : applyOp s₁ (.deleteTr id uid) = .ok s₁') :
    ∃ s₂', applyOp s₂ (.deleteTr id uid) = .ok s₂' ∧
      TransferSim s₀ a b X balA balB row s₁' s₂' := by
  simp only [applyOp] at hok
  cases hfr : s₁.transfers.find? (fun t => t.id = id) with
  | none =>
    simp only [deleteTransfer, hfr] at hok
    exact Except.noConfusion hok
  | some tr₁ =>
    have hidlt : id < row.id := hrowid ▸ havlt
    have htr₁id : tr₁.id = id := by
      have h' := List.find?_some hfr
      simpa using h'
    have htr₁mem : tr₁ ∈ s₁.transfers := List.mem_of_find?_eq_some hfr
    have htr₁old : tr₁ ∈ s₀.transfers :=
      hR.old₁ tr₁ htr₁mem (htr₁id ▸ hidlt)
    obtain ⟨hfa, hfb, hta, htb⟩ := hav tr₁ htr₁old htr₁id
    have hfr₂ : s₂.transfers.find? (fun t => t.id = id) = some tr₁ := by
      rw [← hR.findLow id hidlt]
      exact hfr
    by_cases huid : tr₁.userId ≠ uid
    · simp only [deleteTransfer, hfr] at hok
      rw [if_pos huid] at hok
      exact Except.noConfusion hok
    · have hgen : ∀ (A₁ A₂ : List Account),
          (∀ c, c ≠ a → c ≠ b → balOf A₁ c = balOf A₂ c) →
          balOf A₂ a = some balA → balOf A₁ a = some (balA - X) →
          balOf A₂ b = some balB → balOf A₁ b = some (balB + X) →
          TransferSim s₀ a b X balA balB row
            { s₁ with
                accounts := A₁
                transfers := s₁.transfers.filter fun t => ¬t.id = id }
            { s₂ with
                accounts := A₂
                transfers := s₂.transfers.filter fun t => ¬t.id = id } := by
        intro A₁ A₂ hother hA2 hA1 hB2 hB1
        refine ⟨hother, hA2, hA1, hB2, hB1, hR.txnsEq, hR.nextTxnEq,
          hR.nextTxnGe, hR.nextTrEq, hR.rowLe, ?_, ?_, ?_, ?_, ?_, ?_,
          hR.oldTxn⟩
        · intro t' ht'
          exact hR.bound₁ t' (List.mem_of_mem_filter ht')
        · intro t' ht'
          exact hR.bound₂ t' (List.mem_of_mem_filter ht')
        · intro id' hid'
          by_cases hii : id' = id
          · rw [hii]
            rw [find?_filter_id_none (fun t => t.id) s₁.transfers id,
              find?_filter_id_none (fun t => t.id) s₂.transfers id]
          · rw [find?_filter_id_ne (fun t => t.id) s₁.transfers id id' hii,
              find?_filter_id_ne (fun t => t.id) s₂.transfers id id' hii]
            exact hR.findLow id' hid'
        · rw [find?_filter_id_ne (fun t => t.id) s₁.transfers id row.id
            (by omega)]
          exact hR.findRow
        · intro t' ht' htlt
          exact hR.old₁ t' (List.mem_of_mem_filter ht') htlt
        · intro t' ht' htlt
          exact hR.old₂ t' (List.mem_of_mem_filter ht') htlt
      simp only [deleteTransfer, hfr] at hok
      rw [if_neg huid] at hok
      by_cases hguard : tr₁.fromAccountId ≠ 0 ∧ tr₁.toAccountId ≠ 0
      · rw [if_pos hguard] at hok
        cases hf₁ : findAccount s₁ tr₁.fromAccountId with
        | none =>
          rw [hf₁] at hok
          have hf₁₂ : findAccount s₂ tr₁.fromAccountId = none := by
            have h' := hR.balOther tr₁.fromAccountId hfa hfb
            show s₂.accounts.find? _ = none
            have hl₁ : lookupBalance s₁ tr₁.fromAccountId = none := by
              show (findAccount s₁ tr₁.fromAccountId).map _ = _
              rw [hf₁]; rfl
            have hl₂ : lookupBalance s₂ tr₁.fromAccountId = none := by
              rw [← h']; exact hl₁
            exact Option.map_eq_none'.mp hl₂
          have hok' : Except.ok ({ s₁ with
              accounts := s₁.accounts
              transfers := s₁.transfers.filter fun t => ¬t.id = id } : St) =
              Except.ok s₁' := hok
          refine ⟨{ s₂ with
              accounts := s₂.accounts
              transfers := s₂.transfers.filter fun t => ¬t.id = id },
            ?_, ?_⟩
          · simp only [applyOp, deleteTransfer, hfr₂]
            rw [if_neg huid, if_pos hguard, hf₁₂]
          · exact (Except.ok.inj hok') ▸
              hgen s₁.accounts s₂.accounts hR.balOther hR.balA₂ hR.balA₁
                hR.balB₂ hR.balB₁
        | some fA₁ =>
          rw [hf₁] at hok
          have hbf₂ : balOf s₂.accounts tr₁.fromAccountId =
              some fA₁.balance := by
            have h' := hR.balOther tr₁.fromAccountId hfa hfb
            show lookupBalance s₂ tr₁.fromAccountId = some fA₁.balance
            rw [← h']
            show (findAccount s₁ tr₁.fromAccountId).map _ = _
            rw [hf₁]; rfl
          obtain ⟨fA₂, hff₂, hbeqf⟩ :=
            balOf_eq_some s₂.accounts tr₁.fromAccountId fA₁.balance hbf₂
          have hff₂' : findAccount s₂ tr₁.fromAccountId = some fA₂ := hff₂
          cases hf₂ : findAccount s₁ tr₁.toAccountId with
          | none =>
            rw [hf₂] at hok
            have hf₂₂ : findAccount s₂ tr₁.toAccountId = none := by
              have h' := hR.balOther tr₁.toAccountId hta htb
              show s₂.accounts.find? _ = none
              have hl₁ : lookupBalance s₁ tr₁.toAccountId = none := by
                show (findAccount s₁ tr₁.toAccountId).map _ = _
                rw [hf₂]; rfl
              have hl₂ : lookupBalance s₂ tr₁.toAccountId = none := by
                rw [← h']; exact hl₁
              exact Option.map_eq_none'.mp hl₂
            have hok' : Except.ok ({ s₁ with
                accounts := s₁.accounts
                transfers := s₁.transfers.filter fun t => ¬t.id = id } : St) =
                Except.ok s₁' := hok
            refine ⟨{ s₂ with
                accounts := s₂.accounts
                transfers := s₂.transfers.filter fun t => ¬t.id = id },
              ?_, ?_⟩
            · simp only [applyOp, deleteTransfer, hfr₂]
              rw [if_neg huid, if_pos hguard, hff₂', hf₂₂]
            · exact (Except.ok.inj hok') ▸
                hgen s₁.accounts s₂.accounts hR.balOther hR.balA₂ hR.balA₁
                  hR.balB₂ hR.balB₁
          | some tA₁ =>
            rw [hf₂] at hok
            have hbt₂ : balOf s₂.accounts tr₁.toAccountId =
                some tA₁.balance := by
              have h' := hR.balOther tr₁.toAccountId hta htb
              show lookupBalance s₂ tr₁.toAccountId = some tA₁.balance
              rw [← h']
              show (findAccount s₁ tr₁.toAccountId).map _ = _
              rw [hf₂]; rfl
            obtain ⟨tA₂, htf₂, hbeqt⟩ :=
              balOf_eq_some s₂.accounts tr₁.toAccountId tA₁.balance hbt₂
            have htf₂' : findAccount s₂ tr₁.toAccountId = some tA₂ := htf₂
            have hok' : Except.ok ({ s₁ with
                accounts :=
                  setBalance
                    (setBalance s₁.accounts tr₁.fromAccountId
                      (fA₁.balance + tr₁.amount))
                    tr₁.toAccountId (tA₁.balance - tr₁.amount)
                transfers := s₁.transfers.filter fun t => ¬t.id = id } : St) =
                Except.ok s₁' := hok
            refine ⟨{ s₂ with
                accounts :=
                  setBalance
                    (setBalance s₂.accounts tr₁.fromAccountId
                      (fA₂.balance + tr₁.amount))
                    tr₁.toAccountId (tA₂.balance - tr₁.amount)
                transfers := s₂.transfers.filter fun t => ¬t.id = id },
              ?_, ?_⟩
            · simp only [applyOp, deleteTransfer, hfr₂]
              rw [if_neg huid, if_pos hguard, hff₂', htf₂']
            · refine (Except.ok.inj hok') ▸ hgen _ _ ?_ ?_ ?_ ?_ ?_
              · rw [hbeqf, hbeqt]
                exact balOf_set_congr _ _ a b tr₁.toAccountId _ hta htb
                  (balOf_set_congr _ _ a b tr₁.fromAccountId _ hfa hfb
                    hR.balOther)
              · rw [balOf_set_ne _ _ _ _ (Ne.symm hta),
                  balOf_set_ne _ _ _ _ (Ne.symm hfa)]
                exact hR.balA₂
              · rw [balOf_set_ne _ _ _ _ (Ne.symm hta),
                  balOf_set_ne _ _ _ _ (Ne.symm hfa)]
                exact hR.balA₁
              · rw [balOf_set_ne _ _ _ _ (Ne.symm htb),
                  balOf_set_ne _ _ _ _ (Ne.symm hfb)]
                exact hR.balB₂
              · rw [balOf_set_ne _ _ _ _ (Ne.symm htb),
                  balOf_set_ne _ _ _ _ (Ne.symm hfb)]
                exact hR.balB₁
      · rw [if_neg hguard] at hok
        refine ⟨{ s₂ with
            accounts := s₂.accounts
            transfers := s₂.transfers.filter fun t => ¬t.id = id }, ?_, ?_⟩
        · simp only [applyOp, deleteTransfer, hfr₂]
          rw [if_neg huid, if_neg hguard]
        · exact (Except.ok.inj hok) ▸
            hgen s₁.accounts s₂.accounts hR.balOther hR.balA₂ hR.balA₁
              hR.balB₂ hR.balB₁

theorem sim_step (s₀ : St) (a b : Nat) (X balA balB : Int) (row : Transfer)
    (s₁ s₂ : St) (op : Op) (s₁' : St)
    (hR : TransferSim s₀ a b X balA balB row s₁ s₂)
    (hrowid : row.id = s₀.nextTransferId)
    (hav : opAvoids s₀ a b op)
    (hok : applyOp s₁ op = .ok s₁') :
    ∃ s₂', applyOp s₂ op = .ok s₂' ∧
      TransferSim s₀ a b X balA balB row s₁' s₂' := by
  cases op with
  | createTx tx =>
    exact sim_step_createTx s₀ a b X balA balB row s₁ s₂ tx s₁' hR
      hav.1 hav.2 hok
  | deleteTx id =>
    exact sim_step_deleteTx s₀ a b X balA balB row s₁ s₂ id s₁' hR hav hok
  | createTr tr =>
    exact sim_step_createTr s₀ a b X balA balB row s₁ s₂ tr s₁' hR
      hav.1 hav.2.1 hav.2.2.1 hav.2.2.2 hok
  | deleteTr id uid =>
    exact sim_step_deleteTr s₀ a b X balA balB row s₁ s₂ id uid s₁' hR
      hrowid hav.1 hav.2 hok

theorem sim_run (s₀ : St) (a b : Nat) (X balA balB : Int) (row : Transfer)
    (hrowid : row.id = s₀.nextTransferId) :
    ∀ (ops : List Op) (s₁ s₂ sEnd : St),
    TransferSim s₀ a b X balA balB row s₁ s₂ →
    (∀ op ∈ ops, opAvoids s₀ a b op) →
    applyOps s₁ ops = .ok sEnd →
    ∃ s₂', applyOps s₂ ops = .ok s₂' ∧
      TransferSim s₀ a b X balA balB row sEnd s₂' := by
  intro ops
  induction ops with
  | nil =>
    intro s₁ s₂ sEnd hR _ hok
    exact ⟨s₂, rfl, (Except.ok.inj hok) ▸ hR⟩
  | cons op ops ih =>
    intro s₁ s₂ sEnd hR hav hok
    rw [applyOps] at hok
    cases hop : applyOp s₁ op with
    | error e =>
      rw [hop] at hok
      exact Except.noConfusion hok
    | ok s₁'' =>
      rw [hop] at hok
      obtain ⟨s₂'', hop₂, hR'⟩ := sim_step s₀ a b X balA balB row s₁ s₂ op
        s₁'' hR hrowid (hav op (List.mem_cons_self _ _)) hop
      obtain ⟨s₂', hops₂, hR''⟩ := ih s₁'' s₂'' sEnd hR'
        (fun op' hop' => hav op' (List.mem_cons_of_mem _ hop')) hok
      refine ⟨s₂', ?_, hR''⟩
      rw [applyOps, hop₂]
      exact hops₂

theorem sim_init (s₀ : St) (u a b : Nat) (X : Int) (fa ta : Account)
    (s₁ : St) (trRow : Transfer)
    (hwf : WfSt s₀) (hab : a ≠ b)
    (hA : findAccount s₀ a = some fa) (hB : findAccount s₀ b = some ta)
    (h1 : createTransfer s₀ ⟨u, a, b, X⟩ = .ok (s₁, trRow)) :
    trRow = ⟨s₀.nextTransferId, u, a, b, X⟩ ∧
    TransferSim s₀ a b X fa.balance ta.balance trRow s₁ s₀ := by
  by_cases hlt : fa.balance < X
  · simp only [createTransfer, hA, hB] at h1
    rw [if_pos hlt] at h1
    exact Except.noConfusion h1
  · have hc : createTransfer s₀ ⟨u, a, b, X⟩ = .ok
        ({ s₀ with
            accounts :=
              setBalance (setBalance s₀.accounts a (fa.balance - X)) b
                (ta.balance + X)
            transfers := s₀.transfers ++
              [⟨s₀.nextTransferId, u, a, b, X⟩]
            nextTransferId := s₀.nextTransferId + 1 },
          ⟨s₀.nextTransferId, u, a, b, X⟩) := by
      simp only [createTransfer, hA, hB]
      rw [if_neg hlt]
    rw [hc] at h1
    obtain ⟨hS, hRw⟩ := Prod.mk.injEq _ _ _ _ ▸ (Except.ok.inj h1)
    refine ⟨hRw.symm, ?_⟩
    rw [← hS, ← hRw]
    refine ⟨?_, ?_, ?_, ?_, ?_, rfl, rfl, le_refl _, rfl, le_refl _,
      ?_, hwf.2, ?_, ?_, ?_, ?_, ?_⟩
    · intro c hca hcb
      show balOf (setBalance (setBalance s₀.accounts a (fa.balance - X)) b
        (ta.balance + X)) c = balOf s₀.accounts c
      rw [balOf_set_ne _ _ _ _ hcb, balOf_set_ne _ _ _ _ hca]
    · show (findAccount s₀ a).map _ = _
      rw [hA]; rfl
    · show balOf (setBalance (setBalance s₀.accounts a (fa.balance - X)) b
        (ta.balance + X)) a = some (fa.balance - X)
      rw [balOf_set_ne _ _ _ _ hab]
      exact balOf_set_self s₀.accounts a _ fa hA
    · show (findAccount s₀ b).map _ = _
      rw [hB]; rfl
    · show balOf (setBalance (setBalance s₀.accounts a (fa.balance - X)) b
        (ta.balance + X)) b = some (ta.balance + X)
      refine balOf_set_self _ b _ ta ?_
      rw [find?_setBalance_ne _ _ _ _ (Ne.symm hab)]
      exact hB
    · intro t ht
      rcases List.mem_append.mp ht with h' | h'
      · exact lt_trans (hwf.2 t h') (Nat.lt_succ_self _)
      · rw [List.mem_singleton.mp h']
        exact Nat.lt_succ_self _
    · intro id' hid'
      have hid'' : id' < s₀.nextTransferId := hid'
      refine find?_append_single_neg _ _ _ ?_
      simp only [decide_eq_false_iff_not]
      show ¬s₀.nextTransferId = id'
      omega
    · rw [List.find?_append, List.find?_eq_none.mpr]
      · simp
      · intro t ht
        simp only [decide_eq_true_eq]
        exact Nat.ne_of_lt (hwf.2 t ht)
    · intro t ht htlt
      rcases List.mem_append.mp ht with h' | h'
      · exact h'
      · rw [List.mem_singleton.mp h'] at htlt
        exact absurd htlt (lt_irrefl _)
    · intro t ht _
      exact ht
    · intro t ht _
      exact ht

/-- C7: creating a transfer of `X` from account `a` to a distinct account
`b` (with sufficient balance) and later deleting that transfer restores both
accounts to their exact pre-transfer balances — the deletion succeeds with
no balance re-check, whatever the balances are at deletion time — and the
round trip commutes with any interleaved sequence of balance-mutator
operations unrelated to `a` and `b`: the interleaved run also succeeds on
the untransferred store, and every other account ends at the same balance
in both. -/
theorem transfer_roundTrip_spec (s₀ : St) (u a b : Nat) (X : Int)
    (ops : List Op) (accA accB : Account) (s₁ sMid : St) (trRow : Transfer)
    (hwf : WfSt s₀) (hab : a ≠ b) (ha0 : a ≠ 0) (hb0 : b ≠ 0)
    (hA : findAccount s₀ a = some accA) (hB : findAccount s₀ b = some accB)
    (havoid : ∀ op ∈ ops, opAvoids s₀ a b op)
    (h1 : createTransfer s₀ ⟨u, a, b, X⟩ = .ok (s₁, trRow))
    (h2 : applyOps s₁ ops = .ok sMid) :
    ∃ sFin, deleteTransfer sMid trRow.id u = .ok sFin ∧
      lookupBalance sFin a = some accA.balance ∧
      lookupBalance sFin b = some accB.balance ∧
      ∃ s₂, applyOps s₀ ops = .ok s₂ ∧
        ∀ c, c ≠ a → c ≠ b →
          lookupBalance sFin c = lookupBalance s₂ c := by
  obtain ⟨hrw, hR0⟩ := sim_init s₀ u a b X accA accB s₁ trRow hwf hab hA hB h1
  have hrowid : trRow.id = s₀.nextTransferId := by rw [hrw]
  obtain ⟨s₂, hops₂, hR⟩ := sim_run s₀ a b X accA.balance accB.balance trRow
    hrowid ops s₁ s₀ sMid hR0 havoid h2
  have hfr : sMid.transfers.find? (fun t => t.id = trRow.id) = some trRow :=
    hR.findRow
  have huid : trRow.userId = u := by rw [hrw]
  have hfromA : trRow.fromAccountId = a := by rw [hrw]
  have htoB : trRow.toAccountId = b := by rw [hrw]
  have hamtX : trRow.amount = X := by rw [hrw]
  obtain ⟨fa', hfa', hfb'⟩ := balOf_eq_some sMid.accounts a _ hR.balA₁
  obtain ⟨ta', hta', htb'⟩ := balOf_eq_some sMid.accounts b _ hR.balB₁
  have hfa'' : findAccount sMid a = some fa' := hfa'
  have hta'' : findAccount sMid b = some ta' := hta'
  have heq : deleteTransfer sMid trRow.id u = .ok
      { sMid with
          accounts :=
            setBalance (setBalance sMid.accounts a (fa'.balance + X)) b
              (ta'.balance - X)
          transfers := sMid.transfers.filter fun t => ¬t.id = trRow.id } := by
    simp only [deleteTransfer, hfr, huid, hfromA, htoB, hamtX]
    rw [if_neg (fun h => h rfl), if_pos ⟨ha0, hb0⟩, hfa'', hta'']
  refine ⟨_, heq, ?_, ?_, s₂, hops₂, ?_⟩
  · show balOf (setBalance (setBalance sMid.accounts a (fa'.balance + X)) b
      (ta'.balance - X)) a = some accA.balance
    rw [balOf_set_ne _ _ _ _ hab,
      balOf_set_self sMid.accounts a _ fa' hfa']
    rw [hfb', sub_add_cancel]
  · show balOf (setBalance (setBalance sMid.accounts a (fa'.balance + X)) b
      (ta'.balance - X)) b = some accB.balance
    refine (balOf_set_self _ b _ ta' ?_).trans ?_
    · rw [find?_setBalance_ne _ _ _ _ (Ne.symm hab)]
      exact hta'
    · rw [htb', add_sub_cancel_right]
  · intro c hca hcb
    show balOf (setBalance (setBalance sMid.accounts a (fa'.balance + X)) b
      (ta'.balance - X)) c = lookupBalance s₂ c
    rw [balOf_set_ne _ _ _ _ hcb, balOf_set_ne _ _ _ _ hca]
    exact hR.balOther c hca hcb

/-- Witness for C7: ₹1,000 from account 1 (₹5,000) to account 2 (₹100), an
unrelated income of ₹500 on account 3 in between, then deletion of the
transfer: accounts 1 and 2 end back at ₹5,000 and ₹100, account 3 matches
the run without the transfer. -/
theorem transfer_roundTrip_spec_witness :
    ∃ sFin,
      deleteTransfer
        ⟨[⟨1, 7, 4000⟩, ⟨2, 7, 1100⟩, ⟨3, 7, 550⟩],
          [⟨1, 7, some 3, ("income"), 500⟩], [⟨10, 7, 1, 2, 1000⟩], 2, 11⟩
        (⟨10, 7, 1, 2, 1000⟩ : Transfer).id 7 = .ok sFin ∧
      lookupBalance sFin 1 =
        some (⟨1, 7, 5000⟩ : Account).balance ∧
      lookupBalance sFin 2 =
        some (⟨2, 7, 100⟩ : Account).balance ∧
      ∃ s₂, applyOps ⟨[⟨1, 7, 5000⟩, ⟨2, 7, 100⟩, ⟨3, 7, 50⟩], [], [], 1, 10⟩
          [.createTx ⟨7, 3, ("income"), 500⟩] = .ok s₂ ∧
        ∀ c, c ≠ 1 → c ≠ 2 → lookupBalance sFin c = lookupBalance s₂ c :=
  transfer_roundTrip_spec
    ⟨[⟨1, 7, 5000⟩, ⟨2, 7, 100⟩, ⟨3, 7, 50⟩], [], [], 1, 10⟩ 7 1 2 1000
    [.createTx ⟨7, 3, ("income"), 500⟩] ⟨1, 7, 5000⟩ ⟨2, 7, 100⟩
    ⟨[⟨1, 7, 4000⟩, ⟨2, 7, 1100⟩, ⟨3, 7, 50⟩], [], [⟨10, 7, 1, 2, 1000⟩],
      1, 11⟩
    ⟨[⟨1, 7, 4000⟩, ⟨2, 7, 1100⟩, ⟨3, 7, 550⟩],
      [⟨1, 7, some 3, ("income"), 500⟩], [⟨10, 7, 1, 2, 1000⟩], 2, 11⟩
    ⟨10, 7, 1, 2, 1000⟩
    ⟨by decide, by decide⟩ (by decide) (by decide) (by decide) rfl rfl
    (by
      intro op hop
      rw [List.mem_singleton.mp hop]
      exact ⟨by decide, by decide⟩)
    rfl rfl

end Rentyfi
